import Mathlib

/-!
Verification of the rule-evaluation core of the `better-react-state` static
analysis tool.  The tool parses React source files and runs ten independent
rules over each file's syntax tree; every rule walks the tree, identifies
component-like functions, extracts the `useState` declarations and other
per-component facts, and emits diagnostic `Issue` records.

This development embeds the decision logic of the rules shallowly.  The Babel
AST plumbing (the `traverse` visitors, `NodePath` navigation and the
extraction helpers built on them) is modelled by giving each discovered
component a record of the facts those traversals extract: its `useState`
entries, the call expressions in its body together with their scope facts,
its effect blocks, its prop-usage records, and so on.  Every decision
function of the rules themselves (`areRelated`, `canContradict`,
`getObjectDepth`, `isNormalizedStructure`, `getComplexityLevel`,
`detectDrilledProps`, `isFetchRelatedInitialValue`, `isLikelyDerivedState`,
…) is translated directly from the source files under `src/`.
-/

namespace BRS

/-- Source position of a syntax node as Babel reports it: `line` is 1-based,
`column` is 0-based.  `getNodeLocation` (`src/utils/ast-helpers.ts`) copies
`node.loc.start` verbatim (its `|| 0` fallback never fires on parsed trees,
where every node carries a position, so we store the position directly). -/
structure Loc where
  line : Nat
  column : Nat
  deriving Repr, DecidableEq

/-- Issue severity, from the `Issue` interface in `src/types.ts`. -/
inductive Severity where
  | error
  | warning
  | info
  deriving Repr, DecidableEq

/-- The unit of rule output (`Issue` in `src/types.ts`).  `endLine` and
`endColumn` are never set by any rule and are omitted.  `suggestion` and
`fixable` are optional in the source; every rule that emits an issue sets
both, but we keep them optional to match the interface. -/
structure Issue where
  rule : String
  severity : Severity
  message : String
  file : String
  line : Nat
  column : Nat
  suggestion : Option String
  fixable : Option Bool
  deriving Repr, DecidableEq

/-- Optional project context (`ProjectContext` in `src/types.ts`):
`{ hasXState, hasXStateStore, xstateVersion? }`. -/
structure ProjectContext where
  hasXState : Bool
  hasXStateStore : Bool
  xstateVersion : Option String
  deriving Repr, DecidableEq

/-- Object-literal property keys, as inspected by `isNormalizedStructure`
(`src/rules/avoid-deeply-nested-state.ts`): identifier keys, numeric-literal
keys, string-literal keys, or anything else (computed keys etc.). -/
inductive PropKey where
  | idKey : String → PropKey
  | numKey : Nat → PropKey
  | strKey : String → PropKey
  | otherKey : PropKey
  deriving Repr, DecidableEq

mutual

/-- The expression subset the rules inspect: literals, identifiers, array and
object literals, member accesses with identifier property, calls, arrow
functions (body abstracted to one expression), binary / conditional / logical
operators, and an opaque constructor for everything else. -/
inductive Expr where
  | strLit : String → Expr
  | numLit : Int → Expr
  | boolLit : Bool → Expr
  | nullLit : Expr
  | ident : String → Expr
  | arrayExpr : List Expr → Expr
  | objectExpr : List ObjMember → Expr
  | memberExpr : Expr → String → Expr
  | callExpr : Expr → List Expr → Expr
  | arrowFn : Expr → Expr
  | binOp : String → Expr → Expr → Expr
  | condExpr : Expr → Expr → Expr → Expr
  | logicalOp : String → Expr → Expr → Expr
  | otherExpr : Expr

/-- One member of an object literal: an `ObjectProperty` with key and value,
an `ObjectMethod` (no value), or a spread element. -/
inductive ObjMember where
  | objProp : PropKey → Expr → ObjMember
  | objMethod : PropKey → ObjMember
  | objSpread : ObjMember

end

/-- `true` for JavaScript `undefined`: the identifier named `undefined`. -/
def Expr.isUndef : Expr → Bool
  | .ident n => n = "undefined"
  | _ => false

/-!
String primitives.  The identifiers the rules classify are ASCII, so the
JS string operations are modelled character-by-character over `String.data`
(core's position-based loops are avoided so that every definition evaluates
by kernel reduction).
-/

/-- JS `toLowerCase` on ASCII identifier text. -/
def strLower (s : String) : String :=
  String.mk (s.data.map Char.toLower)

/-- Does the first list start with the second? -/
def listStarts : List Char → List Char → Bool
  | _, [] => true
  | [], _ :: _ => false
  | a :: as, b :: bs => a = b && listStarts as bs

/-- JS `String.prototype.startsWith`. -/
def strStarts (s pat : String) : Bool :=
  listStarts s.data pat.data

/-- JS `String.prototype.endsWith`. -/
def strEnds (s pat : String) : Bool :=
  listStarts s.data.reverse pat.data.reverse

/-- Substring search: does the first list contain the second? -/
def listSubAux : List Char → List Char → Bool
  | [], needle => listStarts [] needle
  | c :: rest, needle =>
      listStarts (c :: rest) needle || listSubAux rest needle

/-- Substring test, JS `String.prototype.includes`. -/
def strContains (s pat : String) : Bool :=
  listSubAux s.data pat.data

/-- String length in characters. -/
def strLen (s : String) : Nat :=
  s.data.length

/-- The first `n` characters (JS `slice(0, n)`). -/
def strTake (s : String) (n : Nat) : String :=
  String.mk (s.data.take n)

/-- All but the first `n` characters (JS `slice(n)`). -/
def strDrop (s : String) (n : Nat) : String :=
  String.mk (s.data.drop n)

/-- Character predicate over the whole string. -/
def strAll (s : String) (p : Char → Bool) : Bool :=
  s.data.all p

/-- JS `Array.prototype.join(sep)`. -/
def joinSep (sep : String) : List String → String
  | [] => ""
  | [x] => x
  | x :: xs => x ++ sep ++ joinSep sep xs

/-- The decimal digit character for `n < 10`. -/
def digitChar (n : Nat) : Char :=
  if n = 0 then '0' else if n = 1 then '1' else if n = 2 then '2'
  else if n = 3 then '3' else if n = 4 then '4' else if n = 5 then '5'
  else if n = 6 then '6' else if n = 7 then '7' else if n = 8 then '8'
  else '9'

/-- Decimal digits of `n`, most significant first, with enough fuel. -/
def natDigitsGo : Nat → Nat → List Char → List Char
  | 0, _, acc => acc
  | fuel + 1, n, acc =>
      if n < 10 then digitChar n :: acc
      else natDigitsGo fuel (n / 10) (digitChar (n % 10) :: acc)

/-- Decimal rendering of a natural number. -/
def natToStr (n : Nat) : String :=
  String.mk (natDigitsGo (n + 1) n [])

/-- Decimal rendering of an integer (JS `String(number)` on integers). -/
def intToStr : Int → String
  | .ofNat n => natToStr n
  | .negSucc n => "-" ++ natToStr (n + 1)

/-- JS `String(boolean)`. -/
def boolToStr (b : Bool) : String :=
  if b then "true" else "false"

/-- Capitalise the first character (the `capitalize` helper of
`src/rules/group-related-state.ts`). -/
def capitalize (s : String) : String :=
  match s.data with
  | [] => s
  | c :: cs => String.mk (c.toUpper :: cs)

/-- Lower-case the first character (used when deriving a state name from its
setter: `setTotal` → `total`). -/
def lowerFirst (s : String) : String :=
  match s.data with
  | [] => s
  | c :: cs => String.mk (c.toLower :: cs)

/-- JS `Array.prototype.includes` on strings. -/
def listHas (l : List String) (s : String) : Bool :=
  l.contains s

/-- `[...new Set(xs)]` worker: deduplicate keeping the first occurrence of
each element, in order (`fuel` bounds the recursion structurally so the
definition evaluates by kernel reduction; `fuel = length` always
suffices). -/
def dedupFirstGo : Nat → List String → List String
  | 0, _ => []
  | _, [] => []
  | fuel + 1, x :: xs => x :: dedupFirstGo fuel (xs.filter (fun y => y ≠ x))

/-- `[...new Set(xs)]`. -/
def dedupFirst (l : List String) : List String :=
  dedupFirstGo l.length l

/-- One declared reactive state slot (`StateCall` in
`src/utils/ast-helpers.ts`): produced by `findUseStateCalls` for every
`useState` call destructured as `const [name, setterName] = useState(init)`.
`initialValue` is `none` when the call has no argument; `loc` is the
location of the `useState` call expression node. -/
structure StateEntry where
  name : String
  setterName : String
  initialValue : Option Expr
  loc : Loc

/-- What a call expression's callee looks like, as far as the rules inspect
it: a bare identifier, a member access `obj.prop` whose property is an
identifier (`obj` recorded when it is itself an identifier), or other. -/
inductive Callee where
  | identCallee : String → Callee
  | memberCallee : Option String → String → Callee
  | otherCallee : Callee

/-- One call expression found in a component body, together with the scope
facts the traversals compute for it:
`inConditional` — some ancestor is an if / conditional-expression / switch
(`isInConditional`, `src/rules/prefer-explicit-transitions.ts`);
`siblingNames` — callee names of the other calls sharing this call's nearest
enclosing block within the same enclosing function (`findSiblingSetters` /
`areInSameScope`), in traversal order, before the declared-setter filter;
`insideEffect` — the call's enclosing function sits inside a `useEffect`
call (`isInsideUseEffect`, server-vs-client rule). -/
structure CallRec where
  callee : Callee
  args : List Expr
  loc : Loc
  inConditional : Bool
  siblingNames : List String
  insideEffect : Bool

/-- The body of an effect callback, as the effect-related traversals see it:
the call expressions inside it, whether it contains an `await` expression,
whether it returns a cleanup function (a `ReturnStatement` whose function
parent is the callback), and the locations of `await fetch(...)` expressions
(the `AwaitExpression` visitor of `findFetchCallsInEffect`). -/
structure EffectBody where
  calls : List CallRec
  hasAwait : Bool
  hasCleanupReturn : Bool
  awaitedFetchLocs : List Loc

/-- One `useEffect` registration.  Modelled from the spec (§3 EffectBlock):
the extraction helper `findUseEffectCalls` is referenced by the rules but its
definition is not among the provided sources; per the spec it locates effect
registrations and hands the rules the callback subtree.  `callback` is `none`
when the effect call has no argument. -/
structure EffectBlock where
  callback : Option EffectBody

/-- Prop-usage record built by `analyzePropUsage`
(`src/rules/detect-prop-drilling.ts`): for one named prop of one component,
whether the component uses it in its own logic and whether it forwards it to
a child in JSX.  `location` is the component node's location. -/
structure PropUsage where
  componentName : String
  propName : String
  isUsedInComponent : Bool
  isPassedToChild : Bool
  location : Loc

/-- Usage context of one identifier occurrence, the result of
`getIdentifierContext` (`src/rules/state-vs-refs.ts`): inside a `useEffect`
call, inside a handler function (named `handle…`/`on…`), inside a return
statement of the component itself, or other. -/
inductive UsageCtx where
  | effectCtx
  | handlerCtx
  | renderCtx
  | otherCtx
  deriving Repr, DecidableEq

/-- Everything the various traversals extract from one component-like
function that passed `isReactComponent`.  Rules never consult the tree
beyond these facts:
`name` — `getComponentName` result (`none` when the source skips it);
`calls` — every call expression in the component subtree (effect callbacks
included), with scope facts;
`memberAccesses` — every `obj.prop` member access with identifier object and
identifier property, in traversal order;
`dupProps` — `extractComponentProps` of the duplication rule (destructured
prop names, or the accessed `props.x` names);
`propUsages` — `analyzePropUsage` records of the prop-drilling rule;
`renderIdents` — identifiers referenced (not bound) inside return statements
whose function parent is the component (`isUsedInRender`);
`identUsages` — non-binding identifier occurrences with their classified
usage context (`getStateUsageContext`). -/
structure Component where
  name : Option String
  loc : Loc
  stateCalls : List StateEntry
  calls : List CallRec
  effects : List EffectBlock
  memberAccesses : List (String × String)
  dupProps : List String
  propUsages : List PropUsage
  renderIdents : List String
  identUsages : List (String × UsageCtx)

/-- A parsed file, as the rules consume it: the component-like functions the
visitor discovers, in traversal order, each with its extracted facts. -/
abbrev Tree := List Component

/-! ## Union-by-first-match grouping

Both `findRelatedStateGroups` (`src/rules/group-related-state.ts`) and
`findContradictoryGroups` (contradiction rule) run the same procedure:
process entries in order; for each not-yet-processed entry, collect every
later not-yet-processed entry related to it; keep the group when it has at
least two members.  Marking an entry processed removes it from further
consideration, so the procedure is: split the tail into related / unrelated,
group the head with the related ones, recurse on the unrelated rest. -/

/-- Split `rest` into the entries related to `head` and the others,
preserving order (the inner `j` loop). -/
def splitRelated (rel : StateEntry → StateEntry → Bool) (head : StateEntry) :
    List StateEntry → (List StateEntry × List StateEntry)
  | [] => ([], [])
  | x :: xs =>
      let (r, u) := splitRelated rel head xs
      if rel head x then (x :: r, u) else (r, x :: u)

/-- Worker for the grouping procedure, recursing structurally on a fuel
bound (the unrelated remainder is strictly shorter than the input, so
`fuel = length` always suffices and the zero-fuel case is unreachable). -/
def groupByFirstMatchGo (rel : StateEntry → StateEntry → Bool) :
    Nat → List StateEntry → List (List StateEntry)
  | 0, _ => []
  | _, [] => []
  | fuel + 1, x :: xs =>
      let grp := x :: (splitRelated rel x xs).1
      let tail := groupByFirstMatchGo rel fuel (splitRelated rel x xs).2
      if grp.length ≥ 2 then grp :: tail else tail

/-- The grouping procedure shared by `findRelatedStateGroups` and
`findContradictoryGroups`: groups of size ≥ 2 only. -/
def groupByFirstMatch (rel : StateEntry → StateEntry → Bool)
    (l : List StateEntry) : List (List StateEntry) :=
  groupByFirstMatchGo rel l.length l

/-! ## Rule: group-related-state (`src/rules/group-related-state.ts`) -/

/-- The suffix list of `extractBaseName`'s first pattern
`/^(.+)(Id|Name|Email|…)$/i`, lower-cased. -/
def baseSuffixes : List String :=
  ["id", "name", "email", "phone", "address", "date", "time", "count",
   "total", "size", "price", "quantity", "status", "type", "description"]

/-- Boolean-question words, the second pattern `/^(is|has|should|can|will)(.+)$/i`
of `extractBaseName` and the `commonPrefixes` check of `areRelated`. -/
def questionWords : List String := ["is", "has", "should", "can", "will"]

/-- First/last/middle words, the third pattern of `extractBaseName`. -/
def positionWords : List String := ["first", "last", "middle"]

/-- For the anchored greedy regex `/^(.+)(A|B|…)$/i`, the capture `(.+)` is
maximal, so the matched alternative is the shortest listed suffix that ends
the string and leaves a nonempty stem.  (No two distinct listed suffixes of
equal length can end the same string, so the choice is unambiguous.) -/
def shortestSuffixHit (lower : String) (sufs : List String) : Option String :=
  (sufs.filter (fun suf => strEnds lower suf && strLen lower > strLen suf)).foldl
    (fun best suf =>
      match best with
      | none => some suf
      | some b => if strLen suf < strLen b then some suf else best)
    none

/-- First listed word that starts the string and leaves a nonempty rest —
the anchored alternation `/^(w1|w2|…)(.+)$/i`, whose capture 1 is the word. -/
def firstStartWordHit (lower : String) (words : List String) : Option String :=
  words.find? (fun w => strStarts lower w && strLen lower > strLen w)

/-- `extractBaseName` (`src/rules/group-related-state.ts`): try the three
patterns in order and return `match[1].toLowerCase()`.  For pattern 1 the
capture is the stem before the suffix; for patterns 2 and 3 it is the
leading word itself. -/
def extractBaseName (name : String) : Option String :=
  let lower := strLower name
  match shortestSuffixHit lower baseSuffixes with
  | some suf => some (strTake lower (strLen lower - strLen suf))
  | none =>
      match firstStartWordHit lower questionWords with
      | some w => some w
      | none => firstStartWordHit lower positionWords

/-- The form-field suffixes of `areRelated`. -/
def formFieldSuffixes : List String :=
  ["name", "email", "password", "phone", "address", "city", "state", "zip",
   "country"]

/-- The loading/status substrings of `areRelated`. -/
def statusSubstrings : List String :=
  ["loading", "error", "success", "fetching", "pending"]

/-- `areRelated` (`src/rules/group-related-state.ts`): the source takes a
third `allStates` argument that its body never reads, so it is omitted. -/
def areRelated (state1 state2 : StateEntry) : Bool :=
  let name1 := strLower state1.name
  let name2 := strLower state2.name
  let base1 := extractBaseName name1
  let base2 := extractBaseName name2
  if base1.isSome && base2.isSome && base1 == base2 then true
  else
    let isFormField1 := formFieldSuffixes.any (fun suf => strEnds name1 suf)
    let isFormField2 := formFieldSuffixes.any (fun suf => strEnds name2 suf)
    if isFormField1 && isFormField2 then true
    else
      let hasPat1 := statusSubstrings.any (fun pat => strContains name1 pat)
      let hasPat2 := statusSubstrings.any (fun pat => strContains name2 pat)
      if hasPat1 && hasPat2 then true
      else
        let p1 := questionWords.find? (fun p => strStarts name1 p)
        let p2 := questionWords.find? (fun p => strStarts name2 p)
        p1.isSome && p2.isSome && p1 == p2

/-- `findRelatedStateGroups`: the first-match grouping under `areRelated`. -/
def findRelatedStateGroups (stateCalls : List StateEntry) :
    List (List StateEntry) :=
  groupByFirstMatch areRelated stateCalls

/-- `getInitialValueString` (`src/rules/group-related-state.ts`): render a
literal initializer back to source-like text, with placeholders for
arrays, objects and anything else. -/
def getInitialValueString : Option Expr → String
  | none => "undefined"
  | some e =>
      match e with
      | .strLit v => "\x27" ++ v ++ "\x27"
      | .numLit n => intToStr n
      | .boolLit b => boolToStr b
      | .nullLit => "null"
      | .ident n => if n = "undefined" then "undefined" else "initialValue"
      | .arrayExpr _ => "[]"
      | .objectExpr _ => "\x7b\x7d"
      | _ => "initialValue"

/-- `getGroupName`: the first extractable base name, else `state`. -/
def getGroupName (group : List StateEntry) : String :=
  match (group.filterMap (fun s => extractBaseName s.name)).head? with
  | some b => b
  | none => "state"

/-- The suggestion text built by the grouping rule's `checkComponent`. -/
def groupSuggestion (group : List StateEntry) : String :=
  let gn := getGroupName group
  "Consider combining these into a single state object: const [" ++ gn ++
    ", set" ++ capitalize gn ++ "] = useState(\x7b " ++
    joinSep ", "
      (group.map (fun s => s.name ++ ": " ++ getInitialValueString s.initialValue)) ++
    " \x7d)"

/-- The issue the grouping rule pushes for one related group. -/
def groupIssue (filename : String) (group : List StateEntry) : Issue :=
  let loc := (group.headD ⟨"", "", none, ⟨0, 0⟩⟩).loc
  { rule := "group-related-state"
    severity := .warning
    message := "Found " ++ natToStr group.length ++
      " related state variables that should be grouped: " ++
      joinSep ", " (group.map (·.name))
    file := filename
    line := loc.line
    column := loc.column
    suggestion := some (groupSuggestion group)
    fixable := some true }

/-- `checkComponent` of the grouping rule: one issue per related group. -/
def groupCheckComponent (c : Component) (filename : String) : List Issue :=
  (findRelatedStateGroups c.stateCalls).map (groupIssue filename)

/-- `groupRelatedStateRule.check`: run `checkComponent` on every discovered
component (the traversal and `isReactComponent` filter are the extraction
step that produced the `Tree`).  The `context` parameter is declared but
never read by this rule. -/
def groupRelatedStateCheck (tree : Tree) (filename : String)
    (_context : Option ProjectContext) : List Issue :=
  (List.map (fun c => groupCheckComponent c filename) tree).flatten

/-! ## Rule: avoid-state-contradictions (`src/rules/avoid-state-contradictions.ts`) -/

/-- The boolean-question words of `isBooleanState` and `generateEnumValues`
(`is|has|should|can|will|did|does`). -/
def boolQuestionWords : List String :=
  ["is", "has", "should", "can", "will", "did", "does"]

/-- `true` when the initializer is a boolean literal (`t.isBooleanLiteral`). -/
def isBoolLiteral : Option Expr → Bool
  | some (.boolLit _) => true
  | _ => false

/-- `isBooleanState`: boolean-question word at the start of the (lower-cased)
name, or a literal-boolean initializer. -/
def isBooleanState (state : StateEntry) : Bool :=
  let name := strLower state.name
  boolQuestionWords.any (fun w => strStarts name w) ||
    isBoolLiteral state.initialValue

/-- The status-family word groups of `canContradict`. -/
def contraPatterns : List (List String) :=
  [["loading", "error", "success", "idle"],
   ["fetching", "error", "success"],
   ["pending", "resolved", "rejected"],
   ["open", "closed", "closing", "opening"],
   ["visible", "hidden", "hiding", "showing"],
   ["expanded", "collapsed", "expanding", "collapsing"],
   ["pristine", "dirty", "submitting", "submitted"],
   ["valid", "invalid", "validating"],
   ["connected", "disconnected", "connecting"],
   ["online", "offline", "reconnecting"]]

/-- The status words of `canContradict`'s common-base check. -/
def contraStateWords : List String :=
  ["loading", "error", "success", "pending", "complete"]

/-- JS `s.replace(pat, "")` with a string pattern: remove the first
occurrence of `pat` (splitting on every occurrence and re-joining all but
the first restores exactly that behaviour). -/
def removeFirstAux (pat : List Char) : List Char → List Char
  | [] => []
  | c :: rest =>
      if listStarts (c :: rest) pat then (c :: rest).drop pat.length
      else c :: removeFirstAux pat rest

def removeFirstOcc (s pat : String) : String :=
  String.mk (removeFirstAux pat.data s.data)

/-- `canContradict` (`src/rules/avoid-state-contradictions.ts`). -/
def canContradict (state1 state2 : StateEntry) : Bool :=
  let name1 := strLower state1.name
  let name2 := strLower state2.name
  if contraPatterns.any (fun pat =>
      pat.any (fun p => strContains name1 p) &&
      pat.any (fun p => strContains name2 p)) then
    true
  else
    contraStateWords.any (fun word1 =>
      contraStateWords.any (fun word2 =>
        word1 ≠ word2 && strContains name1 word1 && strContains name2 word2 &&
          removeFirstOcc name1 word1 == removeFirstOcc name2 word2))

/-- `findContradictoryGroups`: first-match grouping of the boolean-flavored
entries under `canContradict`. -/
def findContradictoryGroups (booleanStates : List StateEntry) :
    List (List StateEntry) :=
  groupByFirstMatch canContradict booleanStates

/-- One step of `generateEnumValues`: strip a leading boolean-question word
(the regex `/^(is|has|should|can|will|did|does)/` replaces the first
alternative that matches at the start), then strip leading underscores. -/
def enumValueOfName (name : String) : String :=
  let lower := strLower name
  let stripped :=
    match boolQuestionWords.find? (fun w => strStarts lower w) with
    | some w => strDrop lower (strLen w)
    | none => lower
  String.mk (stripped.data.dropWhile (fun ch => ch = '_'))

/-- `generateEnumValues`: derive candidate enum values from the group's
names, deduplicated and nonempty, prepending `idle` when a loading-like
value is present, falling back to the canonical four values. -/
def generateEnumValues (group : List StateEntry) : List String :=
  let values := (group.map (fun s => enumValueOfName s.name)).foldl
    (fun acc v => if v ≠ "" && !(listHas acc v) then acc ++ [v] else acc) []
  let values :=
    if values.any (fun v => listHas ["loading", "fetching", "pending"] v) &&
        !(listHas values "idle") then
      "idle" :: values
    else values
  if values.length > 0 then values else ["idle", "loading", "success", "error"]

/-- The issue the contradiction rule pushes for one contradictory group. -/
def contraIssue (filename : String) (group : List StateEntry) : Issue :=
  let loc := (group.headD ⟨"", "", none, ⟨0, 0⟩⟩).loc
  let enumValues := generateEnumValues group
  { rule := "avoid-state-contradictions"
    severity := .error
    message := "Found " ++ natToStr group.length ++
      " boolean states that can contradict: " ++
      joinSep ", " (group.map (·.name))
    file := filename
    line := loc.line
    column := loc.column
    suggestion := some ("Replace with a single state: const [status, setStatus] = useState<\x27" ++
      joinSep "\x27 | \x27" enumValues ++ "\x27>(\x27" ++
      (enumValues.headD "") ++ "\x27)")
    fixable := some true }

/-- `checkComponent` of the contradiction rule. -/
def contraCheckComponent (c : Component) (filename : String) : List Issue :=
  (findContradictoryGroups (c.stateCalls.filter isBooleanState)).map
    (contraIssue filename)

/-- `avoidStateContradictionsRule.check` (this rule's `check` declares no
context parameter at all; one is threaded here for a uniform signature). -/
def avoidStateContradictionsCheck (tree : Tree) (filename : String)
    (_context : Option ProjectContext) : List Issue :=
  (List.map (fun c => contraCheckComponent c filename) tree).flatten

/-! ## Rule: avoid-deeply-nested-state (`src/rules/avoid-deeply-nested-state.ts`) -/

mutual

/-- `getObjectDepth` on a present node: an object literal's depth starts at
`currentDepth + 1` and maximises over its property values at
`currentDepth + 1` (object methods count as `currentDepth + 1`; spreads are
skipped); an array literal recurses into its elements without adding a
level; every other expression is a leaf at `currentDepth`. -/
def exprDepth : Expr → Nat → Nat
  | .objectExpr props, d => objMembersDepth props d
  | .arrayExpr elems, d => arrayElemsDepth elems d
  | _, d => d

/-- The loop over an object literal's properties, with `maxDepth` seeded at
`currentDepth + 1`. -/
def objMembersDepth (props : List ObjMember) (d : Nat) : Nat :=
  match props with
  | [] => d + 1
  | .objProp _ v :: rest => max (exprDepth v (d + 1)) (objMembersDepth rest d)
  | .objMethod _ :: rest => max (d + 1) (objMembersDepth rest d)
  | .objSpread :: rest => objMembersDepth rest d

/-- The loop over an array literal's elements, with `maxDepth` seeded at
`currentDepth`. -/
def arrayElemsDepth (elems : List Expr) (d : Nat) : Nat :=
  match elems with
  | [] => d
  | e :: rest => max (exprDepth e d) (arrayElemsDepth rest d)

end

/-- `getObjectDepth(node)` with its default `currentDepth = 0`; a missing
initializer has depth 0. -/
def getObjectDepth : Option Expr → Nat
  | none => 0
  | some e => exprDepth e 0

/-- The key test of `isNormalizedStructure`:
`/^\d+$|^[a-zA-Z0-9]{1,10}$/` — all ASCII digits (any length ≥ 1), or 1–10
ASCII alphanumeric characters. -/
def looksLikeIdKey (s : String) : Bool :=
  (strLen s ≥ 1 && strAll s Char.isDigit) ||
    (1 ≤ strLen s && strLen s ≤ 10 && strAll s Char.isAlphanum)

/-- The key name `isNormalizedStructure` extracts from a nested property:
identifier name, numeric literal rendered as a string, string literal value,
or the empty string for anything else. -/
def propKeyName : PropKey → String
  | .idKey n => n
  | .numKey n => natToStr n
  | .strKey s => s
  | .otherKey => ""

/-- The inner loop of `isNormalizedStructure`: all `ObjectProperty` members
of the nested object must have a nonempty ID-looking key (non-property
members are skipped). -/
def allIdKeys (props : List ObjMember) : Bool :=
  props.all (fun m =>
    match m with
    | .objProp k _ => propKeyName k ≠ "" && looksLikeIdKey (propKeyName k)
    | _ => true)

/-- `isNormalizedStructure` (`src/rules/avoid-deeply-nested-state.ts`): a
top-level object literal one of whose property values is an object literal
whose own properties all have ID-looking keys. -/
def isNormalizedStructure : Option Expr → Bool
  | some (.objectExpr props) =>
      props.any (fun m =>
        match m with
        | .objProp _ (.objectExpr nested) => allIdKeys nested
        | _ => false)
  | _ => false

/-- The issue the nesting rule pushes for one flagged state entry. -/
def nestedIssue (filename : String) (s : StateEntry) (depth : Nat) : Issue :=
  { rule := "avoid-deeply-nested-state"
    severity := .warning
    message := "State \x27" ++ s.name ++ "\x27 is nested " ++ natToStr depth ++
      " levels deep, which makes updates complex"
    file := filename
    line := s.loc.line
    column := s.loc.column
    suggestion := some "Consider flattening the state structure or normalizing the data"
    fixable := some false }

/-- `checkComponent` of the nesting rule: the source's
`if (depth > 2 && !isNormalized) … else if (depth > 3) …` chain. -/
def nestedCheckComponent (c : Component) (filename : String) : List Issue :=
  c.stateCalls.filterMap (fun s =>
    let depth := getObjectDepth s.initialValue
    let isNormalized := isNormalizedStructure s.initialValue
    if depth > 2 && !isNormalized then some (nestedIssue filename s depth)
    else if depth > 3 then some (nestedIssue filename s depth)
    else none)

/-- `avoidDeeplyNestedStateRule.check`. -/
def avoidDeeplyNestedStateCheck (tree : Tree) (filename : String)
    (_context : Option ProjectContext) : List Issue :=
  (List.map (fun c => nestedCheckComponent c filename) tree).flatten

/-! ## Rule: avoid-redundant-state (`avoid-redundant-state.ts`) -/

/-- The computed-value name patterns of `isLikelyComputedState`. -/
def computedPatterns : List String :=
  ["total", "sum", "count", "length", "size",
   "full", "empty", "valid", "invalid",
   "enabled", "disabled", "visible", "hidden",
   "selected", "checked", "active",
   "formatted", "display", "label",
   "percent", "progress", "ratio",
   "min", "max", "average", "mean"]

/-- `true` when the initializer is an array literal (`t.isArrayExpression`). -/
def isArrayLiteral : Option Expr → Bool
  | some (.arrayExpr _) => true
  | _ => false

/-- `isLikelyComputedState(state, allStates)`: the source skips the entry
itself by object identity (`s === state`); here `others` is the rest of the
component's entries with `state` removed at its position. -/
def isLikelyComputedState (state : StateEntry) (others : List StateEntry) :
    Bool :=
  let name := strLower state.name
  if computedPatterns.any (fun p => strContains name p) then
    (others.filter (fun s =>
      if ["count", "length", "size", "total"].any (fun p => strContains name p) then
        isArrayLiteral s.initialValue || strContains name "items" ||
          strContains name "list"
      else if ["enabled", "disabled", "visible", "hidden"].any
          (fun p => strContains name p) then
        isBooleanState s
      else true)).length > 0
  else false

/-- The issue the redundancy rule pushes for one computed-looking entry. -/
def redundantIssue (filename : String) (s : StateEntry) : Issue :=
  { rule := "avoid-redundant-state"
    severity := .warning
    message := "State \x27" ++ s.name ++
      "\x27 appears to be computable from other state"
    file := filename
    line := s.loc.line
    column := s.loc.column
    suggestion := some "Consider computing this value during render instead of storing in state"
    fixable := some true }

/-- `checkForComputedUpdates` finds sibling setter groups and hands them to
`analyzeRelatedSetters`, which computes nothing and pushes no issue — the
whole pass contributes no issues. -/
def checkForComputedUpdates (_c : Component) (_filename : String) :
    List Issue :=
  []

/-- `checkComponent` of the redundancy rule: the per-entry loop plus the
no-op `checkForComputedUpdates` pass. -/
def redundantCheckComponent (c : Component) (filename : String) : List Issue :=
  (c.stateCalls.enum.filterMap (fun (i, state) =>
    let others := (c.stateCalls.enum.filterMap (fun (j, s) =>
      if j ≠ i then some s else none))
    if isLikelyComputedState state others then
      some (redundantIssue filename state)
    else none)) ++ checkForComputedUpdates c filename

/-- `avoidRedundantStateRule.check`. -/
def avoidRedundantStateCheck (tree : Tree) (filename : String)
    (_context : Option ProjectContext) : List Issue :=
  (List.map (fun c => redundantCheckComponent c filename) tree).flatten

/-! ## Rule: avoid-state-duplication (`src/rules/avoid-state-duplication.ts`) -/

/-- `extractPropReference`: a bare identifier's name, or the property of a
`props.x` member access. -/
def extractPropReference : Expr → Option String
  | .ident n => some n
  | .memberExpr (.ident obj) prop => if obj = "props" then some prop else none
  | _ => none

/-- `true` for the initializer shapes `checkPropsInitialization` inspects
(`t.isIdentifier(initValue) || t.isMemberExpression(initValue)`). -/
def isIdentOrMember : Expr → Bool
  | .ident _ => true
  | .memberExpr _ _ => true
  | _ => false

/-- The prop-initialization issue (`checkPropsInitialization`, first part). -/
def dupPropInitIssue (filename : String) (s : StateEntry) (propName : String) :
    Issue :=
  { rule := "avoid-state-duplication"
    severity := .warning
    message := "State \x27" ++ s.name ++ "\x27 is initialized from prop \x27" ++
      propName ++ "\x27, which can cause synchronization issues"
    file := filename
    line := s.loc.line
    column := s.loc.column
    suggestion := some "Use the prop directly or derive state from props in an effect if needed"
    fixable := some false }

/-- The state-member-initialization issue (`checkPropsInitialization`,
second part). -/
def dupStateInitIssue (filename : String) (s : StateEntry)
    (objectName property : String) : Issue :=
  { rule := "avoid-state-duplication"
    severity := .warning
    message := "State \x27" ++ s.name ++ "\x27 is initialized from \x27" ++
      objectName ++ "." ++ property ++ "\x27, creating duplication"
    file := filename
    line := s.loc.line
    column := s.loc.column
    suggestion := some "Consider using a single source of truth or computing derived values"
    fixable := some false }

/-- `checkPropsInitialization`: per state entry, an issue when the
initializer references a component prop, and another when it is a member
access into a sibling state.  (Member accesses are modelled with identifier
properties only, so the `property : 'property'` fallback is not needed.) -/
def checkPropsInitialization (c : Component) (filename : String) :
    List Issue :=
  (c.stateCalls.map (fun s =>
    let first :=
      match s.initialValue with
      | some init =>
          if isIdentOrMember init then
            match extractPropReference init with
            | some propName =>
                if listHas c.dupProps propName then
                  [dupPropInitIssue filename s propName]
                else []
            | none => []
          else []
      | none => []
    let second :=
      match s.initialValue with
      | some (.memberExpr (.ident objectName) property) =>
          match c.stateCalls.find? (fun t => t.name = objectName) with
          | some _ => [dupStateInitIssue filename s objectName property]
          | none => []
      | _ => []
    first ++ second)).flatten

/-- The setter-from-sibling-state issue (`checkStateDuplication`). -/
def dupSetFromStateIssue (filename : String) (setterState sourceState : StateEntry)
    (loc : Loc) : Issue :=
  { rule := "avoid-state-duplication"
    severity := .warning
    message := "State \x27" ++ setterState.name ++
      "\x27 is being set from state \x27" ++ sourceState.name ++
      "\x27, creating duplication"
    file := filename
    line := loc.line
    column := loc.column
    suggestion := some "Consider using a single source of truth or computing derived values"
    fixable := some false }

/-- `checkStateDuplication`: a setter invoked with the plain value of a
different sibling state as its first argument.  The source compares the two
`find` results by object identity (`sourceState !== setterState`); positions
in the entry list model that identity. -/
def checkStateDuplication (c : Component) (filename : String) : List Issue :=
  c.calls.filterMap (fun call =>
    match call.callee with
    | .identCallee cname =>
        match c.stateCalls.findIdx? (fun s => s.setterName = cname) with
        | none => none
        | some i =>
            match call.args.head? with
            | some (.ident argName) =>
                match c.stateCalls.findIdx? (fun s => s.name = argName) with
                | none => none
                | some j =>
                    if i ≠ j then
                      match c.stateCalls.get? i, c.stateCalls.get? j with
                      | some setterState, some sourceState =>
                          some (dupSetFromStateIssue filename setterState
                            sourceState call.loc)
                      | _, _ => none
                    else none
            | _ => none
    | _ => none)

/-- `isObjectInitializer`: an object literal, or an identifier whose name
contains `initial`. -/
def isObjectInitializer : Option Expr → Bool
  | some (.objectExpr _) => true
  | some (.ident n) => strContains n "initial"
  | _ => false

/-- `countObjectProperties`: the raw property count of an object literal
(methods and spreads included), 0 otherwise. -/
def countObjectProperties : Option Expr → Nat
  | some (.objectExpr props) => props.length
  | _ => 0

/-- Add one accessed property to a state's used-property set, preserving
insertion order (`Set` semantics). -/
def addUsage (m : List (String × List String)) (key prop : String) :
    List (String × List String) :=
  if m.any (fun p => p.1 = key) then
    m.map (fun p =>
      if p.1 = key then
        (key, if listHas p.2 prop then p.2 else p.2 ++ [prop])
      else p)
  else m ++ [(key, [prop])]

/-- The `stateUsage` map of `checkSelectiveUsage`: for each member access
`obj.prop` whose object is a declared state name, record the property. -/
def stateUsageMap (c : Component) : List (String × List String) :=
  c.memberAccesses.foldl (fun m acc =>
    match c.stateCalls.find? (fun s => s.name = acc.1) with
    | some state => addUsage m state.name acc.2
    | none => m) []

/-- The selective-usage issue (`checkSelectiveUsage`). -/
def dupSelectiveIssue (filename : String) (s : StateEntry)
    (totalProps : Nat) (usedProps : List String) : Issue :=
  { rule := "avoid-state-duplication"
    severity := .info
    message := "State \x27" ++ s.name ++ "\x27 stores " ++ natToStr totalProps ++
      " properties but only uses " ++ joinSep ", " usedProps
    file := filename
    line := s.loc.line
    column := s.loc.column
    suggestion := some "Consider storing only the needed properties or using a ref for non-reactive data"
    fixable := some false }

/-- `checkSelectiveUsage`: object-literal state with more than 3 properties
of which at most 2 — and fewer than half — are ever accessed.  (JS computes
`usedProps.size < totalProps / 2` with real division, i.e.
`2 * size < total`.) -/
def checkSelectiveUsage (c : Component) (filename : String) : List Issue :=
  (stateUsageMap c).filterMap (fun entry =>
    match c.stateCalls.find? (fun s => s.name = entry.1) with
    | none => none
    | some state =>
        if isObjectInitializer state.initialValue && entry.2.length ≤ 2 then
          let totalProps := countObjectProperties state.initialValue
          if totalProps > 3 && 2 * entry.2.length < totalProps then
            some (dupSelectiveIssue filename state totalProps entry.2)
          else none
        else none)

/-- `checkComponent` of the duplication rule: the three passes in order. -/
def dupCheckComponent (c : Component) (filename : String) : List Issue :=
  checkPropsInitialization c filename ++ checkStateDuplication c filename ++
    checkSelectiveUsage c filename

/-- `avoidStateDuplicationRule.check`. -/
def avoidStateDuplicationCheck (tree : Tree) (filename : String)
    (_context : Option ProjectContext) : List Issue :=
  (List.map (fun c => dupCheckComponent c filename) tree).flatten

/-! ## Rule: prefer-explicit-transitions (`src/rules/prefer-explicit-transitions.ts`) -/

/-- `hasUseReducer`: any call expression whose callee is the identifier
`useReducer`. -/
def hasUseReducer (c : Component) : Bool :=
  c.calls.any (fun call =>
    match call.callee with
    | .identCallee n => n = "useReducer"
    | _ => false)

/-- The per-setter usage profile (`StateUpdatePattern`); `updateCount` is the
length of the source's `updateLocations` list. -/
structure UpdatePattern where
  setterName : String
  updateCount : Nat
  updatesWithOthers : List String
  conditionalUpdates : Nat
  dependsOnPrevState : Bool

/-- JS `Map.set`: overwrite in place when the key exists (keeping its
insertion position), append otherwise. -/
def mapSet {β : Type} (m : List (String × β)) (k : String) (v : β) :
    List (String × β) :=
  if m.any (fun p => p.1 = k) then
    m.map (fun p => if p.1 = k then (k, v) else p)
  else m ++ [(k, v)]

/-- JS `Map.has`. -/
def mapHas {β : Type} (m : List (String × β)) (k : String) : Bool :=
  m.any (fun p => p.1 = k)

/-- Update the value at a key that is present. -/
def mapAdjust {β : Type} (m : List (String × β)) (k : String) (f : β → β) :
    List (String × β) :=
  m.map (fun p => if p.1 = k then (k, f p.2) else p)

/-- The initialisation loop of `analyzeStateUpdates`: one empty profile per
declared setter. -/
def initUpdatePatterns (stateCalls : List StateEntry) :
    List (String × UpdatePattern) :=
  stateCalls.foldl
    (fun m s => mapSet m s.setterName ⟨s.setterName, 0, [], 0, false⟩) []

/-- `node.arguments.length > 0 && t.isArrowFunctionExpression(node.arguments[0])`. -/
def firstArgIsArrow : List Expr → Bool
  | .arrowFn _ :: _ => true
  | _ => false

/-- One visit of the `CallExpression` visitor of `analyzeStateUpdates`: if
the callee is a declared setter, record the call site, previous-state
dependency, conditional placement, and the same-scope sibling setters
(`findSiblingSetters` keeps the sibling callee names that are declared
setters, deduplicated per call site). -/
def applyUpdateCall (patterns : List (String × UpdatePattern))
    (call : CallRec) : List (String × UpdatePattern) :=
  match call.callee with
  | .identCallee n =>
      if mapHas patterns n then
        let sibs := dedupFirst (call.siblingNames.filter
          (fun s => mapHas patterns s))
        mapAdjust patterns n (fun p =>
          { p with
            updateCount := p.updateCount + 1
            dependsOnPrevState := p.dependsOnPrevState || firstArgIsArrow call.args
            conditionalUpdates :=
              p.conditionalUpdates + (if call.inConditional then 1 else 0)
            updatesWithOthers := p.updatesWithOthers ++ sibs })
      else patterns
  | _ => patterns

/-- `analyzeStateUpdates`: fold the visitor over the component's calls. -/
def analyzeStateUpdates (c : Component) : List (String × UpdatePattern) :=
  c.calls.foldl applyUpdateCall (initUpdatePatterns c.stateCalls)

/-- The three-way classification of `getComplexityLevel`. -/
inductive Complexity where
  | simple
  | moderate
  | complex
  deriving Repr, DecidableEq

/-- `getComplexityLevel` (`src/rules/prefer-explicit-transitions.ts`):
count, per profile, the complexity indicators, then apply the two
threshold tests.  Note the source's `complexUpdates` requires
`dependsOnPrevState && updatesWithOthers.length > 0` (one sibling suffices),
and its `moderate` test has the extra disjunct `complexUpdates >= 2`. -/
def getComplexityLevel (stateCalls : List StateEntry)
    (patterns : List (String × UpdatePattern)) : Complexity :=
  let stateCount := stateCalls.length
  let complexUpdates := (patterns.filter (fun p =>
    p.2.dependsOnPrevState && p.2.updatesWithOthers.length > 0)).length
  let relatedUpdates := (patterns.filter (fun p =>
    p.2.updatesWithOthers.length ≥ 2)).length
  let conditionalComplexity := (patterns.filter (fun p =>
    p.2.conditionalUpdates ≥ 2)).length
  if stateCount ≥ 8 || complexUpdates ≥ 3 ||
      (conditionalComplexity ≥ 3 && stateCount ≥ 4) then
    .complex
  else if stateCount ≥ 4 || relatedUpdates ≥ 2 ||
      (conditionalComplexity ≥ 2 && stateCount ≥ 3) || complexUpdates ≥ 2 then
    .moderate
  else
    .simple

/-- `getSuggestion`: the only place any rule reads the project context; the
source's type restricts the argument to `moderate | complex`. -/
def getSuggestion (complexity : Complexity)
    (context : Option ProjectContext) : String :=
  let hasXState := (context.map (·.hasXState)).getD false
  let hasXStateStore := (context.map (·.hasXStateStore)).getD false
  if complexity = .moderate then
    if hasXStateStore then
      "Consider using @xstate/store (already in your project) for atomic, event-driven state updates"
    else if hasXState then
      "Consider using useReducer or @xstate/store for better state organization"
    else
      "Consider using useReducer to make state transitions more explicit and predictable"
  else
    if hasXState then
      "Consider using XState (already in your project) for complex state orchestration and visual modeling"
    else if hasXStateStore then
      "Consider using @xstate/store (already in your project) or upgrading to full XState for complex state machines"
    else
      "Consider using useReducer or exploring XState for complex state orchestration"

/-- `checkComponent` of the transitions rule. -/
def transitionsCheckComponent (c : Component) (filename : String)
    (context : Option ProjectContext) : List Issue :=
  if hasUseReducer c then []
  else
    let patterns := analyzeStateUpdates c
    let complexity := getComplexityLevel c.stateCalls patterns
    if complexity ≠ .simple then
      [{ rule := "prefer-explicit-transitions"
         severity := .info
         message := "Component has " ++ natToStr c.stateCalls.length ++
           " state variables with complex update patterns"
         file := filename
         line := c.loc.line
         column := c.loc.column
         suggestion := some (getSuggestion complexity context)
         fixable := some false }]
    else []

/-- `preferExplicitTransitionsRule.check`. -/
def preferExplicitTransitionsCheck (tree : Tree) (filename : String)
    (context : Option ProjectContext) : List Issue :=
  (List.map (fun c => transitionsCheckComponent c filename context) tree).flatten

/-! ## Rule: detect-state-in-useeffect (`src/rules/detect-state-in-useeffect.ts`) -/

/-- The setter-name shape `/^set[A-Z]/` with `name.length > 3`. -/
def isSetterStyleName (name : String) : Bool :=
  strStarts name "set" && strLen name > 3 &&
    (match name.data.drop 3 with
     | ch :: _ => ch.isUpper
     | [] => false)

/-- One setter call found inside an effect callback (`SetStateCall`):
`stateName` is the setter name minus `set`, first letter lower-cased;
`argumentNode` is the first argument, `none` when the call has none. -/
structure SetStateCall where
  stateName : String
  argumentNode : Option Expr
  loc : Loc

/-- `findSetStateCallsInEffect`: the setter-style calls in an effect
callback. -/
def findSetStateCallsInEffect (body : EffectBody) : List SetStateCall :=
  body.calls.filterMap (fun call =>
    match call.callee with
    | .identCallee name =>
        if isSetterStyleName name then
          some ⟨lowerFirst (strDrop name 3), call.args.head?, call.loc⟩
        else none
    | _ => none)

/-- The derived-state name patterns of `isLikelyDerivedState`. -/
def derivedPatterns : List String :=
  ["filtered", "sorted", "formatted", "total", "sum", "count", "percentage",
   "percent", "ratio", "average", "mean", "display", "label", "text",
   "visible", "hidden", "enabled", "disabled", "valid", "invalid", "all",
   "none", "some", "every", "has", "is"]

/-- The array-transform methods of `containsComputation`. -/
def computationMethods : List String :=
  ["filter", "map", "reduce", "sort", "find", "findIndex", "some", "every",
   "includes", "slice", "concat"]

/-- The string-formatting methods of `containsComputation`. -/
def stringMethods : List String :=
  ["toLocaleDateString", "toLocaleString", "toFixed", "toLowerCase",
   "toUpperCase", "trim", "split", "join"]

/-- The arithmetic operators of `containsComputation`. -/
def mathOperators : List String := ["+", "-", "*", "/", "%", "**"]

mutual

/-- `containsComputation`'s recursive scan: member-method calls from the
computation/string lists, arithmetic binary operators, conditional
expressions and logical expressions mark a computation; all children are
scanned. -/
def containsComputation : Expr → Bool
  | .callExpr callee args =>
      (match callee with
       | .memberExpr _ prop =>
           listHas computationMethods prop || listHas stringMethods prop
       | _ => false) ||
        containsComputation callee || listAnyComputation args
  | .binOp op l r =>
      listHas mathOperators op || containsComputation l || containsComputation r
  | .condExpr _ _ _ => true
  | .logicalOp _ _ _ => true
  | .arrayExpr elems => listAnyComputation elems
  | .objectExpr props => membersAnyComputation props
  | .memberExpr obj _ => containsComputation obj
  | .arrowFn body => containsComputation body
  | _ => false

/-- Scan of a child list. -/
def listAnyComputation : List Expr → Bool
  | [] => false
  | e :: rest => containsComputation e || listAnyComputation rest

/-- Scan of an object literal's members (property values are children;
identifier keys trigger nothing). -/
def membersAnyComputation : List ObjMember → Bool
  | [] => false
  | .objProp _ v :: rest => containsComputation v || membersAnyComputation rest
  | _ :: rest => membersAnyComputation rest

end

/-- The external call APIs of `containsExternalOperation`. -/
def externalAPIs : List String :=
  ["fetch", "setTimeout", "setInterval", "addEventListener"]

/-- The browser globals of `containsExternalOperation`. -/
def browserAPIs : List String :=
  ["localStorage", "sessionStorage", "navigator", "window", "document"]

/-- The promise methods of `containsExternalOperation`. -/
def promiseMethods : List String := ["then", "catch", "finally"]

/-- One call's contribution to `containsExternalOperation`. -/
def callIsExternal (call : CallRec) : Bool :=
  match call.callee with
  | .identCallee n => listHas externalAPIs n
  | .memberCallee obj prop =>
      (match obj with
       | some o => listHas browserAPIs o
       | none => false) || listHas promiseMethods prop
  | .otherCallee => false

/-- `containsExternalOperation`: external/browser/promise calls, an `await`
expression, or a cleanup return in the effect body.  (The source scopes the
scan to the setter call's enclosing function; setter calls are modelled at
the callback's top level, where that function is the callback itself.) -/
def containsExternalOperation (body : EffectBody) : Bool :=
  body.calls.any callIsExternal || body.hasAwait || body.hasCleanupReturn

/-- `isLikelyDerivedState`: no argument → not flagged; external operation in
the effect → not flagged; otherwise flagged when the state name matches a
derived pattern or the argument contains a computation. -/
def isLikelyDerivedState (s : SetStateCall) (body : EffectBody) : Bool :=
  match s.argumentNode with
  | none => false
  | some arg =>
      let stateName := strLower s.stateName
      let hasDerivedPat := derivedPatterns.any (fun p => strContains stateName p)
      let hasComputationPat := containsComputation arg
      if containsExternalOperation body then false
      else hasDerivedPat || hasComputationPat

/-- The issue the derived-state rule pushes for one flagged setter call. -/
def useEffectIssue (filename : String) (s : SetStateCall) : Issue :=
  { rule := "detect-state-in-useeffect"
    severity := .warning
    message := "State \x27" ++ s.stateName ++
      "\x27 appears to be derived from other state/props and should be computed during render"
    file := filename
    line := s.loc.line
    column := s.loc.column
    suggestion := some "Remove this useState and compute the value during render. If expensive, consider useMemo."
    fixable := some true }

/-- `checkComponent` of the derived-state rule: per effect with a callback,
flag the likely-derived setter calls. -/
def useEffectCheckComponent (c : Component) (filename : String) : List Issue :=
  (c.effects.map (fun eff =>
    match eff.callback with
    | none => []
    | some body =>
        (findSetStateCallsInEffect body).filterMap (fun s =>
          if isLikelyDerivedState s body then some (useEffectIssue filename s)
          else none))).flatten

/-- `detectStateInUseEffectRule.check`. -/
def detectStateInUseEffectCheck (tree : Tree) (filename : String)
    (_context : Option ProjectContext) : List Issue :=
  (List.map (fun c => useEffectCheckComponent c filename) tree).flatten

/-! ## Rule: detect-prop-drilling (`src/rules/detect-prop-drilling.ts`) -/

/-- The first pass: `componentProps.set(componentName, propUsages)` for
every named component (JS `Map` semantics: a repeated name overwrites the
earlier entry in place). -/
def componentPropsMap (tree : Tree) : List (String × List PropUsage) :=
  tree.foldl (fun m c =>
    match c.name with
    | none => m
    | some n => mapSet m n c.propUsages) []

/-- The flattened usage list in `propsByName` insertion order. -/
def allPropUsages (tree : Tree) : List PropUsage :=
  ((componentPropsMap tree).map (·.2)).flatten

/-- Worker for the by-name grouping, recursing structurally on a fuel bound
(`fuel = length` always suffices). -/
def groupUsagesByNameGo : Nat → List PropUsage → List (String × List PropUsage)
  | 0, _ => []
  | _, [] => []
  | fuel + 1, u :: rest =>
      (u.propName, u :: rest.filter (fun v => v.propName = u.propName)) ::
        groupUsagesByNameGo fuel (rest.filter (fun v => v.propName ≠ u.propName))

/-- Group a usage list by prop name, keys in first-occurrence order and each
group in scan order — the `propsByName` map. -/
def groupUsagesByName (l : List PropUsage) : List (String × List PropUsage) :=
  groupUsagesByNameGo l.length l

/-- The drillers of a usage group: components that pass the prop on without
using it. -/
def drillersOf (usages : List PropUsage) : List PropUsage :=
  usages.filter (fun u => !u.isUsedInComponent && u.isPassedToChild)

/-- The consumers of a usage group: components that use the prop. -/
def consumersOf (usages : List PropUsage) : List PropUsage :=
  usages.filter (fun u => u.isUsedInComponent)

/-- `detectDrilledProps`: skip prop names containing `spread`; keep a prop
when it has at least one driller and at least two handling components
(drillers then consumers). -/
def detectDrilledProps (tree : Tree) : List (String × List PropUsage) :=
  (groupUsagesByName (allPropUsages tree)).filterMap (fun entry =>
    if strContains entry.1 "spread" then none
    else
      let allComponents := drillersOf entry.2 ++ consumersOf entry.2
      if (drillersOf entry.2).length ≥ 1 && allComponents.length ≥ 2 then
        some (entry.1, allComponents)
      else none)

/-- The issue the prop-drilling rule pushes for one drilled prop. -/
def drillIssue (filename propName : String) (components : List PropUsage)
    (firstDriller : PropUsage) : Issue :=
  let isDeep := components.length ≥ 3
  { rule := "detect-prop-drilling"
    severity := if isDeep then .error else .warning
    message := "Prop \"" ++ propName ++ "\" is drilled through " ++
      natToStr components.length ++ " components (" ++
      joinSep " → " (components.map (·.componentName)) ++
      ") without being used in intermediate components - " ++
      (if isDeep then "deep prop drilling" else "prop drilling") ++ " detected"
    file := filename
    line := firstDriller.location.line
    column := firstDriller.location.column
    suggestion := some (if isDeep then
        "Critical: Use React Context or component composition to eliminate this deep prop drilling for \"" ++
          propName ++ "\""
      else
        "Consider using React Context for \"" ++ propName ++
          "\" or use component composition to avoid prop drilling")
    fixable := some false }

/-- `detectPropDrillingRule.check`: the two passes and the issue loop (the
`find` for the first driller always succeeds on a detected prop). -/
def detectPropDrillingCheck (tree : Tree) (filename : String)
    (_context : Option ProjectContext) : List Issue :=
  (detectDrilledProps tree).filterMap (fun entry =>
    match entry.2.find? (fun u => !u.isUsedInComponent && u.isPassedToChild) with
    | none => none
    | some firstDriller => some (drillIssue filename entry.1 entry.2 firstDriller))

/-! ## Rule: state-vs-refs (`src/rules/state-vs-refs.ts`) -/

/-- `isUsedInRender`: the state name appears (not as a binding) inside a
return statement whose function parent is the component. -/
def isUsedInRender (c : Component) (stateName : String) : Bool :=
  listHas c.renderIdents stateName

/-- The non-render naming patterns of `hasNonRenderNamingPattern`. -/
def nonRenderPatterns : List String :=
  ["timerid", "timer", "intervalid", "interval", "timeout", "timeoutid",
   "ref", "element", "node", "dom",
   "prev", "previous", "last", "old",
   "count", "counter", "clicks", "index", "position",
   "mounted", "initialized", "setup", "ready",
   "time", "mounttime", "rendercount"]

/-- `hasNonRenderNamingPattern`. -/
def hasNonRenderNaming (stateName : String) : Bool :=
  let lowerName := strLower stateName
  nonRenderPatterns.any (fun p =>
    strContains lowerName p || strEnds lowerName p || strStarts lowerName p)

/-- `getStateUsageContext`: the non-binding occurrences of the name with
their contexts; returns (usage count, only-in-non-render-contexts). -/
def getStateUsageContext (c : Component) (stateName : String) : Nat × Bool :=
  let uses := c.identUsages.filter (fun u => u.1 = stateName)
  (uses.length, !(uses.any (fun u => u.2 = .renderCtx)))

/-- `shouldUseRef`: not referenced in render output, and either named like
non-render state or used only in non-render contexts. -/
def shouldUseRef (c : Component) (s : StateEntry) : Bool :=
  if isUsedInRender c s.name then false
  else if hasNonRenderNaming s.name then true
  else
    let ctx := getStateUsageContext c s.name
    ctx.2 && ctx.1 > 0

/-- `getPerformanceImpact`: pattern-family-specific suggestion tail. -/
def getPerformanceImpact (c : Component) (stateName : String) : String :=
  let lowerName := strLower stateName
  if strContains lowerName "timer" || strContains lowerName "interval" then
    "Timer updates cause unnecessary component re-renders on every tick."
  else if strContains lowerName "count" && !isUsedInRender c stateName then
    "Counter updates trigger re-renders without displaying the value."
  else if strContains lowerName "prev" || strContains lowerName "previous" then
    "Previous value tracking for comparisons doesn\x27t need to trigger re-renders."
  else if strContains lowerName "ref" || strContains lowerName "element" then
    "DOM element references should use useRef to avoid re-renders on assignment."
  else
    "This change prevents unnecessary re-renders and improves performance."

/-- The issue the state-vs-refs rule pushes for one flagged entry. -/
def refsIssue (c : Component) (filename : String) (s : StateEntry) : Issue :=
  { rule := "state-vs-refs"
    severity := .warning
    message := "State \x27" ++ s.name ++
      "\x27 doesn\x27t affect render output and should use useRef instead of useState"
    file := filename
    line := s.loc.line
    column := s.loc.column
    suggestion := some ("Use useRef instead of useState for \x27" ++ s.name ++
      "\x27 to prevent unnecessary re-renders. " ++ getPerformanceImpact c s.name)
    fixable := some true }

/-- `checkComponent` of the state-vs-refs rule. -/
def refsCheckComponent (c : Component) (filename : String) : List Issue :=
  c.stateCalls.filterMap (fun s =>
    if shouldUseRef c s then some (refsIssue c filename s) else none)

/-- `stateVsRefsRule.check`. -/
def stateVsRefsCheck (tree : Tree) (filename : String)
    (_context : Option ProjectContext) : List Issue :=
  (List.map (fun c => refsCheckComponent c filename) tree).flatten

/-! ## Rule: server-vs-client-state (`server-vs-client-state.ts`) -/

/-- A recognised network call (`FetchLocation`). -/
structure FetchLoc where
  loc : Loc
  method : String

/-- The HTTP-client method and object allow-lists of
`findFetchCallsInEffect`. -/
def httpMethodsList : List String :=
  ["get", "post", "put", "delete", "patch", "request", "query"]

/-- The HTTP-client object allow-list. -/
def httpClientObjs : List String := ["axios", "http", "api", "client", "$http"]

/-- The GraphQL method allow-list. -/
def gqlMethodsList : List String := ["query", "mutate", "subscribe"]

/-- The GraphQL client-object allow-list (compared lower-cased). -/
def gqlObjs : List String := ["client", "apollo", "graphql"]

/-- The `CallExpression` visitor of `findFetchCallsInEffect`: a bare `fetch`
call, an HTTP-client member call, or a GraphQL member call (a call matching
both the HTTP and GraphQL lists is pushed twice, as in the source). -/
def fetchOfCall (call : CallRec) : List FetchLoc :=
  match call.callee with
  | .identCallee n => if n = "fetch" then [⟨call.loc, "fetch"⟩] else []
  | .memberCallee (some obj) prop =>
      (if listHas httpMethodsList prop && listHas httpClientObjs obj then
        [⟨call.loc, obj ++ "." ++ prop⟩]
      else []) ++
      (if listHas gqlMethodsList prop && listHas gqlObjs (strLower obj) then
        [⟨call.loc, obj ++ "." ++ prop⟩]
      else [])
  | _ => []

/-- `findFetchCallsInEffect`: the call visitor over the callback, plus the
`AwaitExpression` visitor's `await fetch(...)` entries (the source
interleaves the two in traversal order; the order does not affect any
property proved here). -/
def findFetchCallsInEffect (body : EffectBody) : List FetchLoc :=
  ((body.calls.map fetchOfCall).flatten) ++
    body.awaitedFetchLocs.map (fun l => (⟨l, "fetch"⟩ : FetchLoc))

/-- `findSettersInEffect`: setter-style callee names in the callback. -/
def findSettersInEffect (body : EffectBody) : List String :=
  body.calls.filterMap (fun call =>
    match call.callee with
    | .identCallee name => if isSetterStyleName name then some name else none
    | _ => none)

/-- `findRelatedState`: the first setter whose implied state name (the
setter name minus `set`, raw or with the first letter lower-cased) matches
one of the given states. -/
def findRelatedState (setters : List String) (states : List StateEntry) :
    Option StateEntry :=
  match setters with
  | [] => none
  | setter :: rest =>
      let expected := strDrop setter 3
      let camel := lowerFirst expected
      match states.find? (fun s => s.name = camel || s.name = expected) with
      | some s => some s
      | none => findRelatedState rest states

/-- The loading-state filter of `identifyServerStatePatterns`. -/
def loadingStatesOf (stateCalls : List StateEntry) : List StateEntry :=
  stateCalls.filter (fun s =>
    let name := strLower s.name
    strContains name "loading" || strContains name "fetching" ||
      strContains name "pending" || name = "isloading")

/-- The error-state filter. -/
def errorStatesOf (stateCalls : List StateEntry) : List StateEntry :=
  stateCalls.filter (fun s =>
    let name := strLower s.name
    strContains name "error" || name = "iserror")

/-- The data-state filter. -/
def dataStatesOf (stateCalls : List StateEntry) : List StateEntry :=
  stateCalls.filter (fun s =>
    let name := strLower s.name
    strContains name "data" || strContains name "result" ||
      strContains name "response" || strContains name "items" ||
      strContains name "users" || strContains name "posts" ||
      strContains name "products" || strContains name "orders")

/-- The client-only naming patterns `isFetchRelatedInitialValue` excludes. -/
def clientSidePatterns : List String :=
  ["formdata", "form", "input", "selected", "isopen", "isclosed",
   "isvisible", "ishidden", "theme", "modal", "dropdown", "tab", "active"]

/-- The server-data naming patterns of `isFetchRelatedInitialValue`.  Note
the list contains `apidata` and `apiresponse` but not a bare `data`. -/
def serverDataPatterns : List String :=
  ["users", "posts", "products", "items", "apidata", "results", "response",
   "orders", "customers", "articles", "comments", "profile", "settings",
   "config", "apiresponse"]

/-- `isFetchRelatedInitialValue`: no client-side pattern in the name, and
the name equals, starts with, or ends with one of the server-data
patterns. -/
def isFetchRelatedInitialValue (s : StateEntry) : Bool :=
  let name := strLower s.name
  if clientSidePatterns.any (fun p => strContains name p) then false
  else
    serverDataPatterns.any (fun p =>
      name = p || strStarts name p || strEnds name p)

/-- One candidate server-state pattern (`ServerStatePattern`). -/
structure ServerPattern where
  dataState : String
  loadingState : Option String
  errorState : Option String
  fetchLoc : Option FetchLoc

/-- Pattern 1 of `identifyServerStatePatterns`: per effect with recognised
network calls, correlate the setter calls in the effect against the
loading/error/data state-name filters; one pattern per network call when a
data match exists or both a loading and an error match exist. -/
def serverPattern1 (c : Component) (loadingStates errorStates dataStates :
    List StateEntry) : List ServerPattern :=
  (c.effects.map (fun eff =>
    match eff.callback with
    | none => []
    | some body =>
        let fetchInfo := findFetchCallsInEffect body
        if fetchInfo.length > 0 then
          let setters := findSettersInEffect body
          fetchInfo.filterMap (fun fc =>
            let relatedData := findRelatedState setters dataStates
            let relatedLoading := findRelatedState setters loadingStates
            let relatedError := findRelatedState setters errorStates
            if relatedData.isSome ||
                (relatedLoading.isSome && relatedError.isSome) then
              some ⟨((relatedData.map (·.name)).getD "data"),
                relatedLoading.map (·.name), relatedError.map (·.name),
                some fc⟩
            else none)
        else [])).flatten

/-- `findFetchCallsInComponent`: bare `fetch` calls whose enclosing function
is not inside a `useEffect`. -/
def findFetchCallsInComponent (c : Component) : List FetchLoc :=
  c.calls.filterMap (fun call =>
    if call.insideEffect then none
    else
      match call.callee with
      | .identCallee n =>
          if n = "fetch" then some (⟨call.loc, "fetch"⟩ : FetchLoc) else none
      | _ => none)

/-- Pattern 2: a direct fetch call outside any effect, with related state
variables present — reported at most once per component (the source breaks
after the first push). -/
def serverPattern2 (c : Component) (loadingStates errorStates dataStates :
    List StateEntry) : List ServerPattern :=
  match (findFetchCallsInComponent c).head? with
  | none => []
  | some fc =>
      if dataStates.length > 0 ||
          (loadingStates.length > 0 && errorStates.length > 0) then
        [⟨(((dataStates.head?).map (·.name)).getD "data"),
          (loadingStates.head?).map (·.name),
          (errorStates.head?).map (·.name), some fc⟩]
      else []

/-- Pattern 3: state entries whose names alone look like hand-managed server
data. -/
def serverPattern3 (c : Component) : List ServerPattern :=
  c.stateCalls.filterMap (fun s =>
    if isFetchRelatedInitialValue s then
      some ⟨s.name, none, none, none⟩
    else none)

/-- `identifyServerStatePatterns`: the three pathways in push order. -/
def identifyServerStatePatterns (c : Component) : List ServerPattern :=
  let loadingStates := loadingStatesOf c.stateCalls
  let errorStates := errorStatesOf c.stateCalls
  let dataStates := dataStatesOf c.stateCalls
  serverPattern1 c loadingStates errorStates dataStates ++
    serverPattern2 c loadingStates errorStates dataStates ++
    serverPattern3 c

/-- The issue the server-vs-client rule pushes for one pattern:
`pattern.fetchLocation || getNodeLocation(path.node)`, and the state names
joined after `filter(Boolean)` (which drops empty strings). -/
def serverIssue (c : Component) (filename : String) (pat : ServerPattern) :
    Issue :=
  let loc := match pat.fetchLoc with
    | some f => f.loc
    | none => c.loc
  let stateNames := joinSep ", "
    (([some pat.dataState, pat.loadingState, pat.errorState].filterMap id).filter
      (fun s => s ≠ ""))
  { rule := "server-vs-client-state"
    severity := .warning
    message := "Server data (" ++ stateNames ++
      ") is managed with useState instead of a data fetching library"
    file := filename
    line := loc.line
    column := loc.column
    suggestion := some "Consider using React Query, SWR, or RTK Query for server state management. These provide caching, deduplication, and automatic refetching."
    fixable := some false }

/-- `checkComponent` of the server-vs-client rule. -/
def serverCheckComponent (c : Component) (filename : String) : List Issue :=
  (identifyServerStatePatterns c).map (serverIssue c filename)

/-- `serverVsClientStateRule.check`. -/
def serverVsClientStateCheck (tree : Tree) (filename : String)
    (_context : Option ProjectContext) : List Issue :=
  (List.map (fun c => serverCheckComponent c filename) tree).flatten

/-! ## The rule set (`src/rules/index.ts`) -/

/-- A rule as the aggregator sees it (`Rule` in `src/types.ts`, minus the
description). -/
structure Rule where
  name : String
  severity : Severity
  check : Tree → String → Option ProjectContext → List Issue

/-- The full rule list, in registration order (`src/rules/index.ts`). -/
def rules : List Rule :=
  [⟨"group-related-state", .warning, groupRelatedStateCheck⟩,
   ⟨"avoid-state-contradictions", .error, avoidStateContradictionsCheck⟩,
   ⟨"avoid-redundant-state", .warning, avoidRedundantStateCheck⟩,
   ⟨"avoid-deeply-nested-state", .warning, avoidDeeplyNestedStateCheck⟩,
   ⟨"avoid-state-duplication", .warning, avoidStateDuplicationCheck⟩,
   ⟨"prefer-explicit-transitions", .info, preferExplicitTransitionsCheck⟩,
   ⟨"detect-state-in-useeffect", .warning, detectStateInUseEffectCheck⟩,
   ⟨"detect-prop-drilling", .warning, detectPropDrillingCheck⟩,
   ⟨"state-vs-refs", .warning, stateVsRefsCheck⟩,
   ⟨"server-vs-client-state", .warning, serverVsClientStateCheck⟩]

/-! ## Claims -/

/-- The effect body used to witness C10: a zero-argument call to a
setter-style function inside an effect with no external-operation marker. -/
def c10Body : EffectBody :=
  { calls := [⟨.identCallee "setTotal", [], ⟨5, 4⟩, false, [], true⟩]
    hasAwait := false, hasCleanupReturn := false, awaitedFetchLocs := [] }

/-- A component whose single state holds this initializer and nothing
else — scaffolding for the per-scenario nesting checks. -/
def soloStateComp (stateName : String) (init : Expr) : Component :=
  { name := some "App", loc := ⟨1, 0⟩
    stateCalls := [⟨stateName, "set" ++ capitalize stateName, some init, ⟨2, 19⟩⟩]
    calls := [], effects := [], memberAccesses := [], dupProps := []
    propUsages := [], renderIdents := [], identUsages := [] }

/-- An object initializer nested five levels deep whose nested keys are not
ID-like (`notifications` and `preferences` exceed ten characters). -/
def deep5Init : Expr :=
  .objectExpr [.objProp (.idKey "user")
    (.objectExpr [.objProp (.idKey "notifications")
      (.objectExpr [.objProp (.idKey "preferences")
        (.objectExpr [.objProp (.idKey "extra")
          (.objectExpr [.objProp (.idKey "x") (.numLit 1)])])])])]

/-- An object initializer nested exactly two levels deep. -/
def depth2Init : Expr :=
  .objectExpr [.objProp (.idKey "a")
    (.objectExpr [.objProp (.idKey "b") (.numLit 1)])]

/-- A normalized-entities-shaped object nested three levels deep
(`\x7b users: \x7b u1: \x7b name: … \x7d \x7d \x7d`). -/
def norm3Init : Expr :=
  .objectExpr [.objProp (.idKey "users")
    (.objectExpr [.objProp (.idKey "u1")
      (.objectExpr [.objProp (.idKey "theName") (.strLit "x")])])]

/-- A normalized-entities-shaped object nested four levels deep. -/
def norm4Init : Expr :=
  .objectExpr [.objProp (.idKey "users")
    (.objectExpr [.objProp (.idKey "u1")
      (.objectExpr [.objProp (.idKey "prof")
        (.objectExpr [.objProp (.idKey "x") (.numLit 1)])])])]

/-- The tree used to refute C1 as stated: no component declares a state
entry, yet the prop-drilling rule fires (a prop forwarded unused by
`Level1` and consumed by `Level2`) and the state-in-effect rule fires (a
derived-named setter called with a computed argument inside an effect). -/
def c1Tree : Tree :=
  [{ name := some "Level1", loc := ⟨2, 0⟩, stateCalls := [], calls := []
     effects := [], memberAccesses := [], dupProps := ["userData"]
     propUsages := [⟨"Level1", "userData", false, true, ⟨2, 0⟩⟩]
     renderIdents := [], identUsages := [] },
   { name := some "Level2", loc := ⟨6, 0⟩, stateCalls := [], calls := []
     effects := [], memberAccesses := [], dupProps := ["userData"]
     propUsages := [⟨"Level2", "userData", true, false, ⟨6, 0⟩⟩]
     renderIdents := [], identUsages := [] },
   { name := some "Totals", loc := ⟨10, 0⟩, stateCalls := []
     calls := [⟨.identCallee "setTotal",
       [.callExpr (.memberExpr (.ident "items") "filter") [.arrowFn (.ident "x")]],
       ⟨12, 4⟩, false, [], true⟩]
     effects := [⟨some
       { calls := [⟨.identCallee "setTotal",
           [.callExpr (.memberExpr (.ident "items") "filter")
             [.arrowFn (.ident "x")]], ⟨12, 4⟩, false, [], true⟩]
         hasAwait := false, hasCleanupReturn := false, awaitedFetchLocs := [] }⟩]
     memberAccesses := [("items", "filter")], dupProps := ["items"]
     propUsages := [⟨"Totals", "items", true, false, ⟨10, 0⟩⟩]
     renderIdents := [], identUsages := [] }]

/-- Forget the suggestion text of an issue, keeping every other field. -/
def dropSuggestion (i : Issue) : Issue :=
  { i with suggestion := none }

/-- A parsed node position: the parser's lines are 1-based. -/
def locOK (l : Loc) : Prop := 1 ≤ l.line

/-- All positions recorded in an effect body are parsed positions. -/
def EffectBodyLocsOK (b : EffectBody) : Prop :=
  (∀ call ∈ b.calls, locOK call.loc) ∧ (∀ l ∈ b.awaitedFetchLocs, locOK l)

/-- All positions recorded for a component are parsed positions. -/
def ComponentLocsOK (c : Component) : Prop :=
  locOK c.loc ∧ (∀ s ∈ c.stateCalls, locOK s.loc) ∧
  (∀ call ∈ c.calls, locOK call.loc) ∧
  (∀ e ∈ c.effects, ∀ b, e.callback = some b → EffectBodyLocsOK b) ∧
  (∀ u ∈ c.propUsages, locOK u.location)

/-- All positions in the tree are parsed positions. -/
def TreeLocsOK (tree : Tree) : Prop := ∀ c ∈ tree, ComponentLocsOK c

/-- `runAllRules`: the aggregator's loop over the rule set. -/
def runAllRules (tree : Tree) (filename : String)
    (ctx : Option ProjectContext) : List Issue :=
  (rules.map (fun r => r.check tree filename ctx)).flatten

/-- The usage records of one prop name across the whole tree, in the scan
order of the rule's two passes. -/
def usagesForProp (tree : Tree) (p : String) : List PropUsage :=
  (allPropUsages tree).filter (fun u => u.propName = p)

/-- A component that handles exactly one named prop, with the given
usage/forwarding facts — scaffolding for the prop-drilling scenarios. -/
def propComp (cname prop : String) (used passed : Bool) (line : Nat) :
    Component :=
  { name := some cname, loc := ⟨line, 0⟩, stateCalls := [], calls := []
    effects := [], memberAccesses := [], dupProps := [prop]
    propUsages := [⟨cname, prop, used, passed, ⟨line, 0⟩⟩]
    renderIdents := [], identUsages := [] }

/-- One unused forwarder, then the consumer. -/
def warnTree : Tree :=
  [propComp "Level1" "userData" false true 2,
   propComp "Level2" "userData" true false 6]

/-- Two unused forwarders, then the consumer. -/
def errTree : Tree :=
  [propComp "Level1" "config" false true 2,
   propComp "Level2" "config" false true 6,
   propComp "Level3" "config" true false 10]

/-- The prop is used at every level. -/
def cleanTree : Tree :=
  [propComp "Good1" "value" true true 2,
   propComp "Good2" "value" true false 6]

/-- A prop literally named `spreadsheet`, forwarded unused once and then
consumed. -/
def spreadTree : Tree :=
  [propComp "Wrapper" "spreadsheet" false true 2,
   propComp "Sheet" "spreadsheet" true false 6]

/-- The four-form-field component of C6's scenario: `firstName`,
`lastName`, `email`, `phone`, all with string-literal initializers. -/
def fourFieldComp : Component :=
  { name := some "BadUserForm", loc := ⟨1, 0⟩
    stateCalls :=
      [⟨"firstName", "setFirstName", some (.strLit ""), ⟨2, 25⟩⟩,
       ⟨"lastName", "setLastName", some (.strLit ""), ⟨3, 25⟩⟩,
       ⟨"email", "setEmail", some (.strLit ""), ⟨4, 25⟩⟩,
       ⟨"phone", "setPhone", some (.strLit ""), ⟨5, 25⟩⟩]
    calls := [], effects := [], memberAccesses := [], dupProps := []
    propUsages := [], renderIdents := [], identUsages := [] }

/-- The complexity classification exactly as C8's words state it (for
comparison with the source's `getComplexityLevel`): `complex` when
state-entry count ≥ 8, or ≥ 3 setters each have ≥ 2 co-occurring sibling
setters together with previous-value dependency, or ≥ 3 setters show ≥ 2
conditional updates while the count is ≥ 4; `moderate` under the weaker
thresholds (count ≥ 4, or ≥ 2 setters with ≥ 2 siblings, or ≥ 2 setters
with ≥ 2 conditional updates while count ≥ 3); otherwise `simple`. -/
def specComplexityLevelC8 (stateCalls : List StateEntry)
    (patterns : List (String × UpdatePattern)) : Complexity :=
  let stateCount := stateCalls.length
  let strongPrev := (patterns.filter (fun p =>
    p.2.dependsOnPrevState && p.2.updatesWithOthers.length ≥ 2)).length
  let sib2 := (patterns.filter (fun p =>
    p.2.updatesWithOthers.length ≥ 2)).length
  let cond2 := (patterns.filter (fun p =>
    p.2.conditionalUpdates ≥ 2)).length
  if stateCount ≥ 8 || strongPrev ≥ 3 || (cond2 ≥ 3 && stateCount ≥ 4) then
    .complex
  else if stateCount ≥ 4 || sib2 ≥ 2 || (cond2 ≥ 2 && stateCount ≥ 3) then
    .moderate
  else
    .simple

/-- A two-state component whose setters are both called once, in the same
block, each with a functional-update argument: realisable as
`handler = () => \x7b setA(x => …); setB(y => …) \x7d`. -/
def c8ex : Component :=
  { name := some "Pair", loc := ⟨1, 0⟩
    stateCalls := [⟨"a", "setA", some (.numLit 0), ⟨2, 8⟩⟩,
                   ⟨"b", "setB", some (.numLit 0), ⟨3, 8⟩⟩]
    calls := [⟨.identCallee "setA", [.arrowFn (.ident "x")], ⟨5, 4⟩, false,
                ["setB"], false⟩,
              ⟨.identCallee "setB", [.arrowFn (.ident "y")], ⟨6, 4⟩, false,
                ["setA"], false⟩]
    effects := [], memberAccesses := [], dupProps := [], propUsages := []
    renderIdents := [], identUsages := [] }

/-! ## Verification of the claims -/

/-- The unrelated remainder of `splitRelated` is no longer than the input. -/
theorem splitRelated_snd_length_le (rel : StateEntry → StateEntry → Bool)
    (head : StateEntry) (l : List StateEntry) :
    (splitRelated rel head l).2.length ≤ l.length := by
  induction l with
  | nil => simp [splitRelated]
  | cons y ys ih =>
      simp only [splitRelated, List.length_cons]
      by_cases hy : rel head y
      · simp only [hy, if_true]
        exact Nat.le_succ_of_le ih
      · simp only [hy, if_false]
        simpa using Nat.succ_le_succ ih

/-! ## Shared helper facts -/

/-- Concatenation over a per-element map is empty when every element
contributes nothing. -/
theorem flatten_map_eq_nil {α β : Type} (f : α → List β) (l : List α)
    (h : ∀ c ∈ l, f c = []) : (List.map f l).flatten = [] := by
  induction l with
  | nil => rfl
  | cons c cs ih =>
      simp only [List.map_cons, List.flatten_cons]
      rw [h c (by simp), ih (fun d hd => h d (by simp [hd]))]
      rfl

/-- Pre-filtering drops only elements the `filterMap` ignores. -/
theorem filterMap_filter_of_none {α β : Type} (p : α → Bool) (f : α → Option β)
    (l : List α) (h : ∀ a ∈ l, p a = false → f a = none) :
    (l.filter p).filterMap f = l.filterMap f := by
  induction l with
  | nil => rfl
  | cons a as ih =>
      by_cases hp : p a
      · rw [List.filter_cons_of_pos hp]
        simp only [List.filterMap_cons]
        rw [ih (fun b hb hpb => h b (by simp [hb]) hpb)]
      · rw [List.filter_cons_of_neg (by simpa using hp),
          List.filterMap_cons, h a (by simp) (by simpa using hp)]
        exact ih (fun b hb hpb => h b (by simp [hb]) hpb)

/-- `findRelatedState` over an empty state list never matches. -/
theorem findRelatedState_nil : ∀ (setters : List String),
    findRelatedState setters [] = none := by
  intro setters
  induction setters with
  | nil => rfl
  | cons s rest ih =>
      unfold findRelatedState
      simp only [List.find?_nil]
      exact ih

/-- Every group the first-match worker returns has at least two members. -/
theorem groupByFirstMatchGo_two_le (rel : StateEntry → StateEntry → Bool) :
    ∀ (fuel : Nat) (l : List StateEntry),
      ∀ g ∈ groupByFirstMatchGo rel fuel l, 2 ≤ g.length := by
  intro fuel
  induction fuel with
  | zero =>
      intro l g hg
      simp [groupByFirstMatchGo] at hg
  | succ n ih =>
      intro l g hg
      cases l with
      | nil => simp [groupByFirstMatchGo] at hg
      | cons x xs =>
          rw [groupByFirstMatchGo] at hg
          by_cases hlen : (x :: (splitRelated rel x xs).1).length ≥ 2
          · rw [if_pos hlen] at hg
            rcases List.mem_cons.mp hg with h1 | h2
            · exact h1 ▸ hlen
            · exact ih _ g h2
          · rw [if_neg hlen] at hg
            exact ih _ g hg

/-- Every group the first-match procedure returns has at least two
members. -/
theorem groupByFirstMatch_two_le (rel : StateEntry → StateEntry → Bool)
    (l : List StateEntry) : ∀ g ∈ groupByFirstMatch rel l, 2 ≤ g.length :=
  groupByFirstMatchGo_two_le rel l.length l

/-- C10: for every effect block and every setter-style call inside its
callback that is invoked with zero arguments, the state-in-effect rule
emits no issue for that call — the call is classified not-derived before
any naming pattern or external-operation check, so the rule's output is
unchanged when zero-argument setter calls are dropped up front. -/
theorem claim_C10 :
    (∀ (body : EffectBody) (s : SetStateCall),
      s ∈ findSetStateCallsInEffect body → s.argumentNode = none →
        isLikelyDerivedState s body = false) ∧
    (∀ (c : Component) (filename : String),
      useEffectCheckComponent c filename =
        (c.effects.map (fun eff =>
          match eff.callback with
          | none => []
          | some body =>
              ((findSetStateCallsInEffect body).filter
                  (fun s => !s.argumentNode.isNone)).filterMap (fun s =>
                if isLikelyDerivedState s body then
                  some (useEffectIssue filename s)
                else none))).flatten) := by
  constructor
  · intro body s _ hnone
    unfold isLikelyDerivedState
    rw [hnone]
  · intro c filename
    unfold useEffectCheckComponent
    congr 1
    apply List.map_congr_left
    intro eff _
    cases heff : eff.callback with
    | none => rfl
    | some body =>
        simp only []
        rw [filterMap_filter_of_none]
        intro s _ hp
        have hnone : s.argumentNode = none := by
          cases harg : s.argumentNode with
          | none => rfl
          | some e => rw [harg] at hp; simp at hp
        rw [if_neg]
        intro hcontra
        rw [show isLikelyDerivedState s body = false from by
          unfold isLikelyDerivedState; rw [hnone]] at hcontra
        exact Bool.false_ne_true hcontra

/-- Witness for C10 at a concrete zero-argument setter call. -/
theorem claim_C10_witness :
    isLikelyDerivedState ⟨"total", none, ⟨5, 4⟩⟩ c10Body = false :=
  claim_C10.1 c10Body ⟨"total", none, ⟨5, 4⟩⟩
    (by
      rw [show findSetStateCallsInEffect c10Body =
        [⟨"total", none, ⟨5, 4⟩⟩] from rfl]
      exact List.mem_singleton.mpr rfl)
    rfl

/-- C5: the nesting rule flags a state entry exactly when the maximum
nesting depth of its initializer exceeds 2 and the initializer is not
normalized-entities-shaped, or exceeds 3 regardless of shape; an object
initializer nested 5 levels deep yields one issue whose message states
"nested 5 levels deep"; an object nested exactly 2 levels yields zero
issues; a normalized-entities-shaped object nested 3 levels yields zero
issues but nested 4 levels yields one issue. -/
theorem claim_C5 :
    (∀ (c : Component) (filename : String),
      nestedCheckComponent c filename = c.stateCalls.filterMap (fun s =>
        if (2 < getObjectDepth s.initialValue ∧
              isNormalizedStructure s.initialValue = false) ∨
            3 < getObjectDepth s.initialValue then
          some (nestedIssue filename s (getObjectDepth s.initialValue))
        else none)) ∧
    nestedCheckComponent (soloStateComp "appState" deep5Init) "App.tsx" =
      [{ rule := "avoid-deeply-nested-state"
         severity := .warning
         message := "State \x27appState\x27 is nested 5 levels deep, which makes updates complex"
         file := "App.tsx"
         line := 2
         column := 19
         suggestion := some "Consider flattening the state structure or normalizing the data"
         fixable := some false }] ∧
    nestedCheckComponent (soloStateComp "formData" depth2Init) "App.tsx" = [] ∧
    nestedCheckComponent (soloStateComp "entities" norm3Init) "App.tsx" = [] ∧
    nestedCheckComponent (soloStateComp "entities" norm4Init) "App.tsx" =
      [{ rule := "avoid-deeply-nested-state"
         severity := .warning
         message := "State \x27entities\x27 is nested 4 levels deep, which makes updates complex"
         file := "App.tsx"
         line := 2
         column := 19
         suggestion := some "Consider flattening the state structure or normalizing the data"
         fixable := some false }] := by
  refine ⟨?_, rfl, rfl, rfl, rfl⟩
  intro c filename
  unfold nestedCheckComponent
  apply List.filterMap_congr
  intro s _
  by_cases h2 : 2 < getObjectDepth s.initialValue <;>
    by_cases hn : isNormalizedStructure s.initialValue = true <;>
      by_cases h3 : 3 < getObjectDepth s.initialValue <;>
        simp [h2, hn, h3]

/-- With no declared state entries the grouping rule finds nothing. -/
theorem groupCheck_empty (c : Component) (f : String)
    (h : c.stateCalls = []) : groupCheckComponent c f = [] := by
  unfold groupCheckComponent findRelatedStateGroups
  rw [h]
  rfl

/-- With no declared state entries the contradiction rule finds nothing. -/
theorem contraCheck_empty (c : Component) (f : String)
    (h : c.stateCalls = []) : contraCheckComponent c f = [] := by
  unfold contraCheckComponent
  rw [h]
  rfl

/-- With no declared state entries the redundancy rule finds nothing. -/
theorem redundantCheck_empty (c : Component) (f : String)
    (h : c.stateCalls = []) : redundantCheckComponent c f = [] := by
  unfold redundantCheckComponent checkForComputedUpdates
  rw [h]
  rfl

/-- With no declared state entries the nesting rule finds nothing. -/
theorem nestedCheck_empty (c : Component) (f : String)
    (h : c.stateCalls = []) : nestedCheckComponent c f = [] := by
  unfold nestedCheckComponent
  rw [h]
  rfl

/-- With no declared state entries the duplication rule finds nothing: every
pass keys off the entry list. -/
theorem dupCheck_empty (c : Component) (f : String)
    (h : c.stateCalls = []) : dupCheckComponent c f = [] := by
  unfold dupCheckComponent
  have h1 : checkPropsInitialization c f = [] := by
    unfold checkPropsInitialization
    rw [h]
    rfl
  have h2 : checkStateDuplication c f = [] := by
    unfold checkStateDuplication
    rw [List.filterMap_eq_nil_iff]
    intro call _
    cases hc : call.callee with
    | identCallee n => rw [h]; rfl
    | memberCallee o p => rfl
    | otherCallee => rfl
  have h3 : checkSelectiveUsage c f = [] := by
    have hm : stateUsageMap c = [] := by
      unfold stateUsageMap
      rw [h]
      induction c.memberAccesses with
      | nil => rfl
      | cons a as ih =>
          simp only [List.foldl_cons, List.find?_nil]
          exact ih
    unfold checkSelectiveUsage
    rw [hm]
    rfl
  rw [h1, h2, h3]
  rfl

/-- Folding the update-pattern visitor over an empty pattern map keeps it
empty. -/
theorem foldl_applyUpdateCall_nil : ∀ (calls : List CallRec),
    calls.foldl applyUpdateCall [] = [] := by
  intro calls
  induction calls with
  | nil => rfl
  | cons call rest ih =>
      have hstep : applyUpdateCall [] call = [] := by
        unfold applyUpdateCall
        cases call.callee <;> simp [mapHas]
      simp only [List.foldl_cons, hstep]
      exact ih

/-- With no declared state entries the transitions rule finds nothing. -/
theorem transitionsCheck_empty (c : Component) (f : String)
    (ctx : Option ProjectContext) (h : c.stateCalls = []) :
    transitionsCheckComponent c f ctx = [] := by
  unfold transitionsCheckComponent
  by_cases hr : hasUseReducer c
  · simp [hr]
  · have hpat : analyzeStateUpdates c = [] := by
      unfold analyzeStateUpdates initUpdatePatterns
      rw [h]
      exact foldl_applyUpdateCall_nil c.calls
    have hcx : getComplexityLevel c.stateCalls (analyzeStateUpdates c) =
        .simple := by
      rw [hpat, h]
      rfl
    simp [hr, hcx]

/-- With no declared state entries the state-vs-refs rule finds nothing. -/
theorem refsCheck_empty (c : Component) (f : String)
    (h : c.stateCalls = []) : refsCheckComponent c f = [] := by
  unfold refsCheckComponent
  rw [h]
  rfl

/-- With no declared state entries the server-vs-client rule finds nothing:
all three pathways require a state-name match. -/
theorem serverCheck_empty (c : Component) (f : String)
    (h : c.stateCalls = []) : serverCheckComponent c f = [] := by
  have hpat : identifyServerStatePatterns c = [] := by
    unfold identifyServerStatePatterns
    rw [h]
    have h1 : serverPattern1 c (loadingStatesOf []) (errorStatesOf [])
        (dataStatesOf []) = [] := by
      unfold serverPattern1
      apply flatten_map_eq_nil
      intro eff _
      cases hcb : eff.callback with
      | none => rfl
      | some body =>
          simp only []
          split
          · rw [List.filterMap_eq_nil_iff]
            intro fc _
            simp only [show (loadingStatesOf [] : List StateEntry) = [] from rfl,
              show (errorStatesOf [] : List StateEntry) = [] from rfl,
              show (dataStatesOf [] : List StateEntry) = [] from rfl,
              findRelatedState_nil]
            rfl
          · rfl
    have h2 : serverPattern2 c (loadingStatesOf []) (errorStatesOf [])
        (dataStatesOf []) = [] := by
      unfold serverPattern2
      cases hh : (findFetchCallsInComponent c).head? with
      | none => rfl
      | some fc => rfl
    have h3 : serverPattern3 c = [] := by
      unfold serverPattern3
      rw [h]
      rfl
    show serverPattern1 c (loadingStatesOf []) (errorStatesOf [])
        (dataStatesOf []) ++
      serverPattern2 c (loadingStatesOf []) (errorStatesOf [])
        (dataStatesOf []) ++ serverPattern3 c = []
    rw [h1, h2, h3]
    rfl
  unfold serverCheckComponent
  rw [hpat]
  rfl

/-- C1 counterexample: on `c1Tree` every component has zero recognised
state entries, yet two rules of the rule set return nonempty issue lists. -/
theorem claim_C1_counterexample :
    (c1Tree.all (fun c => c.stateCalls.isEmpty)) = true ∧
    (detectPropDrillingCheck c1Tree "App.tsx" none).length = 1 ∧
    (detectStateInUseEffectCheck c1Tree "App.tsx" none).length = 1 :=
  ⟨rfl, rfl, rfl⟩

/-- C1 amended: on a parsed tree in which no component declares a
recognised state entry, the eight rules that key off declared state
(grouping, contradiction, redundancy, nesting, duplication,
explicit-transitions, state-vs-refs, server-vs-client) return empty issue
lists for every filename and context; the remaining two rules
(detect-state-in-useeffect and detect-prop-drilling) match setter-name and
prop-usage patterns independent of declared state and can still report
issues. -/
theorem claim_C1_amended (tree : Tree) (filename : String)
    (ctx : Option ProjectContext) (h : ∀ c ∈ tree, c.stateCalls = []) :
    groupRelatedStateCheck tree filename ctx = [] ∧
    avoidStateContradictionsCheck tree filename ctx = [] ∧
    avoidRedundantStateCheck tree filename ctx = [] ∧
    avoidDeeplyNestedStateCheck tree filename ctx = [] ∧
    avoidStateDuplicationCheck tree filename ctx = [] ∧
    preferExplicitTransitionsCheck tree filename ctx = [] ∧
    stateVsRefsCheck tree filename ctx = [] ∧
    serverVsClientStateCheck tree filename ctx = [] := by
  refine ⟨?_, ?_, ?_, ?_, ?_, ?_, ?_, ?_⟩
  · exact flatten_map_eq_nil _ _ (fun c hc => groupCheck_empty c _ (h c hc))
  · exact flatten_map_eq_nil _ _ (fun c hc => contraCheck_empty c _ (h c hc))
  · exact flatten_map_eq_nil _ _ (fun c hc => redundantCheck_empty c _ (h c hc))
  · exact flatten_map_eq_nil _ _ (fun c hc => nestedCheck_empty c _ (h c hc))
  · exact flatten_map_eq_nil _ _ (fun c hc => dupCheck_empty c _ (h c hc))
  · exact flatten_map_eq_nil _ _
      (fun c hc => transitionsCheck_empty c _ ctx (h c hc))
  · exact flatten_map_eq_nil _ _ (fun c hc => refsCheck_empty c _ (h c hc))
  · exact flatten_map_eq_nil _ _ (fun c hc => serverCheck_empty c _ (h c hc))

/-- Witness for C1 amended on a concrete one-component tree. -/
theorem claim_C1_amended_witness :
    groupRelatedStateCheck
      [{ name := some "Empty", loc := ⟨1, 0⟩, stateCalls := [], calls := []
         effects := [], memberAccesses := [], dupProps := [], propUsages := []
         renderIdents := [], identUsages := [] }] "App.tsx" none = [] :=
  (claim_C1_amended
    [{ name := some "Empty", loc := ⟨1, 0⟩, stateCalls := [], calls := []
       effects := [], memberAccesses := [], dupProps := [], propUsages := []
       renderIdents := [], identUsages := [] }] "App.tsx" none
    (by intro c hc; rw [List.mem_singleton.mp hc])).1

/-- The transitions rule reads the context only to build the suggestion. -/
theorem transitionsCheck_ctx (c : Component) (f : String)
    (ctx1 ctx2 : Option ProjectContext) :
    (transitionsCheckComponent c f ctx1).map dropSuggestion =
      (transitionsCheckComponent c f ctx2).map dropSuggestion := by
  unfold transitionsCheckComponent
  by_cases hr : hasUseReducer c
  · simp [hr]
  · simp only [hr, Bool.false_eq_true, if_false, ite_not]
    split
    · rfl
    · simp [dropSuggestion]

/-- C3: for every input tree, filename, and any two contexts (absence
included), each of the ten rules returns issue lists of the same length
whose corresponding elements agree on every field except possibly the
suggestion text. -/
theorem claim_C3 (tree : Tree) (filename : String)
    (ctx1 ctx2 : Option ProjectContext) :
    (groupRelatedStateCheck tree filename ctx1).map dropSuggestion =
      (groupRelatedStateCheck tree filename ctx2).map dropSuggestion ∧
    (avoidStateContradictionsCheck tree filename ctx1).map dropSuggestion =
      (avoidStateContradictionsCheck tree filename ctx2).map dropSuggestion ∧
    (avoidRedundantStateCheck tree filename ctx1).map dropSuggestion =
      (avoidRedundantStateCheck tree filename ctx2).map dropSuggestion ∧
    (avoidDeeplyNestedStateCheck tree filename ctx1).map dropSuggestion =
      (avoidDeeplyNestedStateCheck tree filename ctx2).map dropSuggestion ∧
    (avoidStateDuplicationCheck tree filename ctx1).map dropSuggestion =
      (avoidStateDuplicationCheck tree filename ctx2).map dropSuggestion ∧
    (preferExplicitTransitionsCheck tree filename ctx1).map dropSuggestion =
      (preferExplicitTransitionsCheck tree filename ctx2).map dropSuggestion ∧
    (detectStateInUseEffectCheck tree filename ctx1).map dropSuggestion =
      (detectStateInUseEffectCheck tree filename ctx2).map dropSuggestion ∧
    (detectPropDrillingCheck tree filename ctx1).map dropSuggestion =
      (detectPropDrillingCheck tree filename ctx2).map dropSuggestion ∧
    (stateVsRefsCheck tree filename ctx1).map dropSuggestion =
      (stateVsRefsCheck tree filename ctx2).map dropSuggestion ∧
    (serverVsClientStateCheck tree filename ctx1).map dropSuggestion =
      (serverVsClientStateCheck tree filename ctx2).map dropSuggestion := by
  refine ⟨rfl, rfl, rfl, rfl, rfl, ?_, rfl, rfl, rfl, rfl⟩
  unfold preferExplicitTransitionsCheck
  induction tree with
  | nil => rfl
  | cons c cs ih =>
      simp only [List.map_cons, List.flatten_cons, List.map_append]
      rw [transitionsCheck_ctx c filename ctx1 ctx2, ih]

/-- Lift a per-component line bound through the per-component map. -/
theorem line_ok_flatten (f : Component → List Issue) (tree : Tree)
    (h : ∀ c ∈ tree, ∀ i ∈ f c, 1 ≤ i.line) :
    ∀ i ∈ (List.map f tree).flatten, 1 ≤ i.line := by
  intro i hi
  rw [List.mem_flatten] at hi
  obtain ⟨l, hl, hil⟩ := hi
  rw [List.mem_map] at hl
  obtain ⟨c, hc, rfl⟩ := hl
  exact h c hc i hil

/-- Both halves of `splitRelated` draw from the input list. -/
theorem splitRelated_sub (rel : StateEntry → StateEntry → Bool)
    (head : StateEntry) : ∀ (l : List StateEntry),
    (∀ s ∈ (splitRelated rel head l).1, s ∈ l) ∧
    (∀ s ∈ (splitRelated rel head l).2, s ∈ l) := by
  intro l
  induction l with
  | nil => exact ⟨by simp [splitRelated], by simp [splitRelated]⟩
  | cons x xs ih =>
      unfold splitRelated
      by_cases hx : rel head x <;>
        simp only [hx, if_true, if_false] <;>
        constructor <;> intro s hs
      · rcases List.mem_cons.mp hs with h1 | h2
        · simp [h1]
        · simp [ih.1 s h2]
      · simp [ih.2 s hs]
      · simp [ih.1 s hs]
      · rcases List.mem_cons.mp hs with h1 | h2
        · simp [h1]
        · simp [ih.2 s h2]

/-- Every member of every first-match group is a member of the input. -/
theorem groupByFirstMatchGo_sub (rel : StateEntry → StateEntry → Bool) :
    ∀ (fuel : Nat) (l : List StateEntry) (g : List StateEntry),
      g ∈ groupByFirstMatchGo rel fuel l → ∀ s ∈ g, s ∈ l := by
  intro fuel
  induction fuel with
  | zero => intro l g hg; simp [groupByFirstMatchGo] at hg
  | succ n ih =>
      intro l g hg s hs
      cases l with
      | nil => simp [groupByFirstMatchGo] at hg
      | cons x xs =>
          rw [groupByFirstMatchGo] at hg
          have hcase : g = x :: (splitRelated rel x xs).1 ∨
              g ∈ groupByFirstMatchGo rel n (splitRelated rel x xs).2 := by
            by_cases hlen : (x :: (splitRelated rel x xs).1).length ≥ 2
            · rw [if_pos hlen] at hg
              exact List.mem_cons.mp hg
            · rw [if_neg hlen] at hg
              exact Or.inr hg
          rcases hcase with h1 | h2
          · rw [h1] at hs
            rcases List.mem_cons.mp hs with hh | ht
            · simp [hh]
            · exact List.mem_cons_of_mem _
                ((splitRelated_sub rel x xs).1 s ht)
          · exact List.mem_cons_of_mem _
              ((splitRelated_sub rel x xs).2 s (ih _ g h2 s hs))

/-- The default-headed head of a nonempty list is a member. -/
theorem headD_mem {α : Type} (l : List α) (d : α) (h : l ≠ []) :
    l.headD d ∈ l := by
  cases l with
  | nil => exact absurd rfl h
  | cons x xs => simp

/-- Grouping-rule issues point at state-entry nodes. -/
theorem groupCheck_line_ok (c : Component) (f : String)
    (h : ComponentLocsOK c) : ∀ i ∈ groupCheckComponent c f, 1 ≤ i.line := by
  intro i hi
  unfold groupCheckComponent at hi
  obtain ⟨g, hg, rfl⟩ := List.mem_map.mp hi
  have hlen := groupByFirstMatch_two_le areRelated c.stateCalls g hg
  have hne : g ≠ [] := by
    intro hnil
    rw [hnil] at hlen
    simp at hlen
  have hmem : g.headD ⟨"", "", none, ⟨0, 0⟩⟩ ∈ c.stateCalls :=
    groupByFirstMatchGo_sub areRelated c.stateCalls.length c.stateCalls g hg
      _ (headD_mem g _ hne)
  exact h.2.1 _ hmem

/-- Contradiction-rule issues point at state-entry nodes. -/
theorem contraCheck_line_ok (c : Component) (f : String)
    (h : ComponentLocsOK c) : ∀ i ∈ contraCheckComponent c f, 1 ≤ i.line := by
  intro i hi
  unfold contraCheckComponent at hi
  obtain ⟨g, hg, rfl⟩ := List.mem_map.mp hi
  have hlen := groupByFirstMatch_two_le canContradict _ g hg
  have hne : g ≠ [] := by
    intro hnil
    rw [hnil] at hlen
    simp at hlen
  have hmem : g.headD ⟨"", "", none, ⟨0, 0⟩⟩ ∈
      c.stateCalls.filter isBooleanState :=
    groupByFirstMatchGo_sub canContradict _ _ g hg _ (headD_mem g _ hne)
  exact h.2.1 _ (List.mem_of_mem_filter hmem)

/-- Redundancy-rule issues point at state-entry nodes. -/
theorem redundantCheck_line_ok (c : Component) (f : String)
    (h : ComponentLocsOK c) :
    ∀ i ∈ redundantCheckComponent c f, 1 ≤ i.line := by
  intro i hi
  unfold redundantCheckComponent checkForComputedUpdates at hi
  rw [List.append_nil] at hi
  obtain ⟨⟨idx, state⟩, hmem, hfn⟩ := List.mem_filterMap.mp hi
  have hstate : state ∈ c.stateCalls := by
    rw [List.mem_enum_iff_getElem?] at hmem
    exact List.getElem?_mem hmem
  dsimp only at hfn
  split at hfn
  · cases hfn
    exact h.2.1 _ hstate
  · exact absurd hfn (by simp)

/-- Nesting-rule issues point at state-entry nodes. -/
theorem nestedCheck_line_ok (c : Component) (f : String)
    (h : ComponentLocsOK c) :
    ∀ i ∈ nestedCheckComponent c f, 1 ≤ i.line := by
  intro i hi
  unfold nestedCheckComponent at hi
  obtain ⟨s, hs, hfn⟩ := List.mem_filterMap.mp hi
  have hline := h.2.1 s hs
  dsimp only at hfn
  split at hfn
  · cases hfn
    exact hline
  · split at hfn
    · cases hfn
      exact hline
    · exact absurd hfn (by simp)

/-- State-vs-refs issues point at state-entry nodes. -/
theorem refsCheck_line_ok (c : Component) (f : String)
    (h : ComponentLocsOK c) : ∀ i ∈ refsCheckComponent c f, 1 ≤ i.line := by
  intro i hi
  unfold refsCheckComponent at hi
  obtain ⟨s, hs, hfn⟩ := List.mem_filterMap.mp hi
  split at hfn
  · cases hfn
    exact h.2.1 s hs
  · exact absurd hfn (by simp)

/-- Transitions-rule issues point at the component node. -/
theorem transitionsCheck_line_ok (c : Component) (f : String)
    (ctx : Option ProjectContext) (h : ComponentLocsOK c) :
    ∀ i ∈ transitionsCheckComponent c f ctx, 1 ≤ i.line := by
  intro i hi
  unfold transitionsCheckComponent at hi
  dsimp only at hi
  split at hi
  · exact absurd hi (by simp)
  · split at hi
    · rw [List.mem_singleton] at hi
      rw [hi]
      exact h.1
    · exact absurd hi (by simp)

/-- Duplication-rule issues point at state-entry or call nodes. -/
theorem dupCheck_line_ok (c : Component) (f : String)
    (h : ComponentLocsOK c) : ∀ i ∈ dupCheckComponent c f, 1 ≤ i.line := by
  intro i hi
  unfold dupCheckComponent at hi
  rcases List.mem_append.mp hi with hi12 | hi3
  rotate_left
  · unfold checkSelectiveUsage at hi3
    obtain ⟨entry, _, hfn⟩ := List.mem_filterMap.mp hi3
    split at hfn
    · exact absurd hfn (by simp)
    next state hfind =>
      have hstate : state ∈ c.stateCalls := List.mem_of_find?_eq_some hfind
      split at hfn
      · dsimp only at hfn
        split at hfn
        · cases hfn
          exact h.2.1 _ hstate
        · exact absurd hfn (by simp)
      · exact absurd hfn (by simp)
  rcases List.mem_append.mp hi12 with hi1 | hi2
  · unfold checkPropsInitialization at hi1
    rw [List.mem_flatten] at hi1
    obtain ⟨sub, hsub, hisub⟩ := hi1
    obtain ⟨s, hs, rfl⟩ := List.mem_map.mp hsub
    have hline := h.2.1 s hs
    dsimp only at hisub
    rcases List.mem_append.mp hisub with ha | hb
    · split at ha
      · split at ha
        · split at ha
          · split at ha
            · rw [List.mem_singleton] at ha
              rw [ha]
              exact hline
            · exact absurd ha (by simp)
          · exact absurd ha (by simp)
        · exact absurd ha (by simp)
      · exact absurd ha (by simp)
    · split at hb
      · split at hb
        · rw [List.mem_singleton] at hb
          rw [hb]
          exact hline
        · exact absurd hb (by simp)
      · exact absurd hb (by simp)
  · unfold checkStateDuplication at hi2
    obtain ⟨call, hcall, hfn⟩ := List.mem_filterMap.mp hi2
    have hline := h.2.2.1 call hcall
    split at hfn
    · split at hfn
      · exact absurd hfn (by simp)
      · split at hfn
        · split at hfn
          · exact absurd hfn (by simp)
          · split at hfn
            · split at hfn
              · cases hfn
                exact hline
              · exact absurd hfn (by simp)
            · exact absurd hfn (by simp)
        · exact absurd hfn (by simp)
    · exact absurd hfn (by simp)

/-- Setter calls found in an effect carry the call's position. -/
theorem findSetStateCalls_loc (body : EffectBody) (s : SetStateCall)
    (hs : s ∈ findSetStateCallsInEffect body) :
    ∃ call ∈ body.calls, s.loc = call.loc := by
  unfold findSetStateCallsInEffect at hs
  obtain ⟨call, hcall, hfn⟩ := List.mem_filterMap.mp hs
  refine ⟨call, hcall, ?_⟩
  split at hfn
  · split at hfn
    · cases hfn
      rfl
    · exact absurd hfn (by simp)
  · exact absurd hfn (by simp)

/-- Derived-state-rule issues point at setter-call nodes inside effects. -/
theorem useEffectCheck_line_ok (c : Component) (f : String)
    (h : ComponentLocsOK c) :
    ∀ i ∈ useEffectCheckComponent c f, 1 ≤ i.line := by
  intro i hi
  unfold useEffectCheckComponent at hi
  rw [List.mem_flatten] at hi
  obtain ⟨sub, hsub, hisub⟩ := hi
  obtain ⟨eff, heff, rfl⟩ := List.mem_map.mp hsub
  split at hisub
  · exact absurd hisub (by simp)
  next body hcb =>
    obtain ⟨s, hs, hfn⟩ := List.mem_filterMap.mp hisub
    obtain ⟨call, hcall, hloc⟩ := findSetStateCalls_loc body s hs
    have hline := (h.2.2.2.1 eff heff body hcb).1 call hcall
    split at hfn
    · cases hfn
      rw [show (useEffectIssue f s).line = s.loc.line from rfl, hloc]
      exact hline
    · exact absurd hfn (by simp)

/-- Recognised network calls carry the call's position. -/
theorem fetchOfCall_loc (call : CallRec) (fl : FetchLoc)
    (hfl : fl ∈ fetchOfCall call) : fl.loc = call.loc := by
  unfold fetchOfCall at hfl
  split at hfl
  · split at hfl
    · rw [List.mem_singleton] at hfl
      rw [hfl]
    · exact absurd hfl (by simp)
  · rcases List.mem_append.mp hfl with h1 | h2
    · split at h1
      · rw [List.mem_singleton] at h1
        rw [h1]
      · exact absurd h1 (by simp)
    · split at h2
      · rw [List.mem_singleton] at h2
        rw [h2]
      · exact absurd h2 (by simp)
  · exact absurd hfl (by simp)

/-- Network calls found in an effect carry parsed positions. -/
theorem findFetchCallsInEffect_line_ok (body : EffectBody)
    (h : EffectBodyLocsOK body) :
    ∀ fl ∈ findFetchCallsInEffect body, 1 ≤ fl.loc.line := by
  intro fl hfl
  unfold findFetchCallsInEffect at hfl
  rcases List.mem_append.mp hfl with h1 | h2
  · rw [List.mem_flatten] at h1
    obtain ⟨sub, hsub, hflsub⟩ := h1
    obtain ⟨call, hcall, rfl⟩ := List.mem_map.mp hsub
    rw [fetchOfCall_loc call fl hflsub]
    exact h.1 call hcall
  · obtain ⟨l, hl, rfl⟩ := List.mem_map.mp h2
    exact h.2 l hl

/-- Server-vs-client issues point at parsed nodes: a recognised network
call or the component node itself. -/
theorem serverCheck_line_ok (c : Component) (f : String)
    (h : ComponentLocsOK c) :
    ∀ i ∈ serverCheckComponent c f, 1 ≤ i.line := by
  intro i hi
  unfold serverCheckComponent at hi
  obtain ⟨pat, hpat, rfl⟩ := List.mem_map.mp hi
  have hloc : ∀ fc, pat.fetchLoc = some fc → 1 ≤ fc.loc.line := by
    intro fc hfc
    unfold identifyServerStatePatterns at hpat
    rcases List.mem_append.mp hpat with h12 | h3
    rotate_left
    · unfold serverPattern3 at h3
      obtain ⟨s, _, hfn⟩ := List.mem_filterMap.mp h3
      split at hfn
      · cases hfn
        simp at hfc
      · exact absurd hfn (by simp)
    rcases List.mem_append.mp h12 with h1 | h2
    · unfold serverPattern1 at h1
      rw [List.mem_flatten] at h1
      obtain ⟨sub, hsub, hpatsub⟩ := h1
      obtain ⟨eff, heff, rfl⟩ := List.mem_map.mp hsub
      cases hcb : eff.callback with
      | none =>
          simp only [hcb] at hpatsub
          simp at hpatsub
      | some body =>
          simp only [hcb] at hpatsub
          split at hpatsub
          · obtain ⟨fc2, hfc2, hfn⟩ := List.mem_filterMap.mp hpatsub
            split at hfn
            · cases hfn
              rw [← Option.some.inj hfc]
              exact findFetchCallsInEffect_line_ok body
                (h.2.2.2.1 eff heff body hcb) fc2 hfc2
            · exact absurd hfn (by simp)
          · exact absurd hpatsub (List.not_mem_nil _)
    · unfold serverPattern2 at h2
      split at h2
      · exact absurd h2 (by simp)
      next fc2 hhead =>
        split at h2
        · rw [List.mem_singleton] at h2
          cases h2
          rw [← Option.some.inj hfc]
          have hfc2 : fc2 ∈ findFetchCallsInComponent c :=
            List.mem_of_mem_head? hhead
          unfold findFetchCallsInComponent at hfc2
          obtain ⟨call, hcall, hfn⟩ := List.mem_filterMap.mp hfc2
          split at hfn
          · exact absurd hfn (by simp)
          · split at hfn
            · split at hfn
              · cases hfn
                exact h.2.2.1 call hcall
              · exact absurd hfn (by simp)
            · exact absurd hfn (by simp)
        · exact absurd h2 (by simp)
  unfold serverIssue
  split
  next fc hfc =>
    exact hloc fc hfc
  next hfc =>
    exact h.1

/-- Every overwrite-map value is an inserted value or an original one. -/
theorem mapSet_mem_values {β : Type} (m : List (String × β)) (k : String)
    (v : β) (pair : String × β) (h : pair ∈ mapSet m k v) :
    pair.2 = v ∨ pair ∈ m := by
  unfold mapSet at h
  split at h
  · obtain ⟨q, hq, heq⟩ := List.mem_map.mp h
    by_cases hk : q.1 = k
    · rw [if_pos hk] at heq
      left
      rw [← heq]
    · rw [if_neg hk] at heq
      right
      rw [← heq]
      exact hq
  · rcases List.mem_append.mp h with h1 | h2
    · right
      exact h1
    · left
      rw [List.mem_singleton] at h2
      rw [h2]

/-- Every value stored in the first prop-drilling pass is the prop-usage
list of some component of the tree. -/
theorem componentPropsMap_values (tree : Tree) :
    ∀ pair ∈ componentPropsMap tree, ∃ c ∈ tree, pair.2 = c.propUsages := by
  unfold componentPropsMap
  suffices hgen : ∀ (sub : List Component)
      (m : List (String × List PropUsage)),
      (∀ c ∈ sub, c ∈ tree) →
      (∀ pair ∈ m, ∃ c ∈ tree, pair.2 = c.propUsages) →
      ∀ pair ∈ sub.foldl (fun m c =>
        match c.name with
        | none => m
        | some n => mapSet m n c.propUsages) m,
        ∃ c ∈ tree, pair.2 = c.propUsages by
    exact hgen tree [] (fun c hc => hc) (by simp)
  intro sub
  induction sub with
  | nil => intro m _ hm pair hp; exact hm pair hp
  | cons c cs ih =>
      intro m hsub hm pair hp
      rw [List.foldl_cons] at hp
      refine ih _ (fun d hd => hsub d (by simp [hd])) ?_ pair hp
      intro q hq
      split at hq
      · exact hm q hq
      · rcases mapSet_mem_values _ _ _ q hq with h1 | h2
        · exact ⟨c, hsub c (by simp), h1⟩
        · exact hm q h2

/-- Every collected prop usage belongs to a component of the tree. -/
theorem allPropUsages_line_ok (tree : Tree) (h : TreeLocsOK tree) :
    ∀ u ∈ allPropUsages tree, 1 ≤ u.location.line := by
  intro u hu
  unfold allPropUsages at hu
  rw [List.mem_flatten] at hu
  obtain ⟨sub, hsub, husub⟩ := hu
  obtain ⟨pair, hpair, rfl⟩ := List.mem_map.mp hsub
  obtain ⟨c, hc, hval⟩ := componentPropsMap_values tree pair hpair
  rw [hval] at husub
  exact (h c hc).2.2.2.2 u husub

/-- Removing another name's entries does not change a name's filter. -/
theorem filter_after_filter_ne (key ph : String) (hne : key ≠ ph)
    (l : List PropUsage) :
    (l.filter (fun v => v.propName ≠ ph)).filter
        (fun v => v.propName = key) =
      l.filter (fun v => v.propName = key) := by
  rw [List.filter_filter]
  apply List.filter_congr
  intro a _
  by_cases hk : a.propName = key
  · have hph : a.propName ≠ ph := fun hc => hne (hk ▸ hc)
    simp only [hk, hph, ne_eq, decide_not]
    simpa using hne
  · simp [hk]

/-- Keys produced by the by-name grouping worker name some element of the
input list. -/
theorem groupUsagesByNameGo_key_mem : ∀ (fuel : Nat) (l : List PropUsage)
    (key : String) (grp : List PropUsage),
    (key, grp) ∈ groupUsagesByNameGo fuel l → ∃ u ∈ l, u.propName = key := by
  intro fuel
  induction fuel with
  | zero => intro l key grp hg; simp [groupUsagesByNameGo] at hg
  | succ n ih =>
      intro l key grp hg
      cases l with
      | nil => simp [groupUsagesByNameGo] at hg
      | cons u rest =>
          rw [groupUsagesByNameGo] at hg
          rcases List.mem_cons.mp hg with h1 | h2
          · exact ⟨u, by simp, by rw [(Prod.mk.injEq _ _ _ _).mp h1 |>.1]⟩
          · obtain ⟨v, hv, hvk⟩ := ih _ key grp h2
            exact ⟨v, by simp [List.mem_filter.mp hv |>.1], hvk⟩

/-- With enough fuel, each group is exactly the name-filtered sublist of the
input. -/
theorem groupUsagesByNameGo_grp : ∀ (fuel : Nat) (l : List PropUsage),
    l.length ≤ fuel → ∀ key grp, (key, grp) ∈ groupUsagesByNameGo fuel l →
      grp = l.filter (fun u => u.propName = key) := by
  intro fuel
  induction fuel with
  | zero => intro l hl key grp hg; simp [groupUsagesByNameGo] at hg
  | succ n ih =>
      intro l hl key grp hg
      cases l with
      | nil => simp [groupUsagesByNameGo] at hg
      | cons u rest =>
          rw [groupUsagesByNameGo] at hg
          rcases List.mem_cons.mp hg with h1 | h2
          · obtain ⟨hk, hgrp⟩ := (Prod.mk.injEq _ _ _ _).mp h1
            subst hk
            rw [hgrp]
            simp [List.filter_cons]
          · have hlen : (rest.filter
                (fun v => v.propName ≠ u.propName)).length ≤ n :=
              Nat.le_trans (List.length_filter_le _ _)
                (Nat.le_of_succ_le_succ hl)
            have hgrp := ih _ hlen key grp h2
            obtain ⟨v, hv, hvk⟩ := groupUsagesByNameGo_key_mem n _ key grp h2
            have hne : key ≠ u.propName := by
              have hvne : v.propName ≠ u.propName := by
                have hmem := (List.mem_filter.mp hv).2
                simpa using hmem
              exact hvk ▸ hvne
            rw [hgrp, filter_after_filter_ne key u.propName hne rest,
              List.filter_cons]
            simp [Ne.symm hne]

/-- With enough fuel, every name occurring in the list appears as a key. -/
theorem groupUsagesByNameGo_key_exists : ∀ (fuel : Nat) (l : List PropUsage),
    l.length ≤ fuel → ∀ u ∈ l,
      ∃ grp, (u.propName, grp) ∈ groupUsagesByNameGo fuel l := by
  intro fuel
  induction fuel with
  | zero =>
      intro l hl u hu
      have hnil : l = [] := List.eq_nil_of_length_eq_zero (Nat.le_zero.mp hl)
      subst hnil
      simp at hu
  | succ n ih =>
      intro l hl u hu
      cases l with
      | nil => simp at hu
      | cons v rest =>
          by_cases hk : u.propName = v.propName
          · refine ⟨v :: rest.filter (fun w => w.propName = v.propName), ?_⟩
            rw [groupUsagesByNameGo, hk]
            exact List.mem_cons_self _ _
          · have hu' : u ∈ rest := by
              rcases List.mem_cons.mp hu with h1 | h2
              · exact absurd (h1 ▸ rfl) hk
              · exact h2
            have humem : u ∈ rest.filter (fun w => w.propName ≠ v.propName) :=
              List.mem_filter.mpr ⟨hu', by simpa using hk⟩
            have hlen : (rest.filter
                (fun w => w.propName ≠ v.propName)).length ≤ n :=
              Nat.le_trans (List.length_filter_le _ _)
                (Nat.le_of_succ_le_succ hl)
            obtain ⟨grp, hgrp⟩ := ih _ hlen u humem
            refine ⟨grp, ?_⟩
            rw [groupUsagesByNameGo]
            exact List.mem_cons_of_mem _ hgrp

/-- Each group of `groupUsagesByName` is the name-filtered sublist. -/
theorem groupUsagesByName_grp (l : List PropUsage) (key : String)
    (grp : List PropUsage) (hg : (key, grp) ∈ groupUsagesByName l) :
    grp = l.filter (fun u => u.propName = key) :=
  groupUsagesByNameGo_grp l.length l (Nat.le_refl _) key grp hg

/-- Membership characterization of `detectDrilledProps`: a prop appears with
its handling components (drillers then consumers) exactly when its recorded
name does not contain `spread`, at least one component forwards it unused,
and at least two components handle it. -/
theorem detectDrilledProps_iff (tree : Tree) (p : String)
    (comps : List PropUsage) :
    (p, comps) ∈ detectDrilledProps tree ↔
      (strContains p "spread" = false ∧
       comps = drillersOf (usagesForProp tree p) ++
         consumersOf (usagesForProp tree p) ∧
       1 ≤ (drillersOf (usagesForProp tree p)).length ∧
       2 ≤ comps.length) := by
  unfold detectDrilledProps
  constructor
  · intro h
    obtain ⟨entry, hentry, hfn⟩ := List.mem_filterMap.mp h
    by_cases hspread : strContains entry.1 "spread"
    · rw [if_pos hspread] at hfn
      exact absurd hfn (by simp)
    · rw [if_neg hspread] at hfn
      by_cases hcond : (drillersOf entry.2).length ≥ 1 &&
          (drillersOf entry.2 ++ consumersOf entry.2).length ≥ 2
      · rw [if_pos hcond] at hfn
        obtain ⟨hp, hcomps⟩ := (Prod.mk.injEq _ _ _ _).mp (Option.some.inj hfn)
        have hgrp : entry.2 = usagesForProp tree entry.1 :=
          groupUsagesByName_grp (allPropUsages tree) entry.1 entry.2
            (by rw [Prod.mk.eta]; exact hentry)
        simp only [Bool.and_eq_true, decide_eq_true_eq] at hcond
        subst hp
        refine ⟨by simpa using hspread, ?_, ?_, ?_⟩
        · rw [← hcomps, hgrp]
        · rw [← hgrp]; exact hcond.1
        · rw [← hcomps]; exact hcond.2
      · rw [if_neg hcond] at hfn
        exact absurd hfn (by simp)
  · rintro ⟨hspread, hcomps, hdr, hlen⟩
    have hnonempty : ∃ u ∈ allPropUsages tree, u.propName = p := by
      have : drillersOf (usagesForProp tree p) ≠ [] := by
        intro hnil
        rw [hnil] at hdr
        simp at hdr
      obtain ⟨d, hd⟩ := List.exists_mem_of_ne_nil _ this
      have hdu : d ∈ usagesForProp tree p := List.mem_of_mem_filter hd
      exact ⟨d, List.mem_of_mem_filter hdu, by
        have := (List.mem_filter.mp hdu).2
        simpa using this⟩
    obtain ⟨u, hu, hup⟩ := hnonempty
    obtain ⟨grp, hgrp⟩ := groupUsagesByNameGo_key_exists
      (allPropUsages tree).length (allPropUsages tree) (Nat.le_refl _) u hu
    rw [hup] at hgrp
    have hgeq : grp = usagesForProp tree p :=
      groupUsagesByName_grp (allPropUsages tree) p grp hgrp
    refine List.mem_filterMap.mpr ⟨(p, grp), hgrp, ?_⟩
    rw [if_neg (by simp [hspread])]
    rw [if_pos (by
      simp only [Bool.and_eq_true, decide_eq_true_eq]
      rw [hgeq]
      exact ⟨hdr, by rw [hcomps] at hlen; exact hlen⟩)]
    rw [hgeq, ← hcomps]

/-- A detected drilled prop always yields its issue in the rule's output,
with the first driller as the location carrier. -/
theorem detectPropDrillingCheck_mem (tree : Tree) (file : String)
    (ctx : Option ProjectContext) (p : String) (comps : List PropUsage)
    (h : (p, comps) ∈ detectDrilledProps tree) :
    ∃ fd, comps.find?
        (fun u => !u.isUsedInComponent && u.isPassedToChild) = some fd ∧
      drillIssue file p comps fd ∈ detectPropDrillingCheck tree file ctx := by
  have hchar := (detectDrilledProps_iff tree p comps).mp h
  obtain ⟨hspread, hcomps, hdr, hlen⟩ := hchar
  have hfind : (comps.find?
      (fun u => !u.isUsedInComponent && u.isPassedToChild)).isSome := by
    rw [List.find?_isSome]
    have : drillersOf (usagesForProp tree p) ≠ [] := by
      intro hnil
      rw [hnil] at hdr
      simp at hdr
    obtain ⟨d, hd⟩ := List.exists_mem_of_ne_nil _ this
    refine ⟨d, ?_, (List.mem_filter.mp hd).2⟩
    rw [hcomps]
    exact List.mem_append.mpr (Or.inl hd)
  obtain ⟨fd, hfd⟩ := Option.isSome_iff_exists.mp hfind
  refine ⟨fd, hfd, ?_⟩
  unfold detectPropDrillingCheck
  refine List.mem_filterMap.mpr ⟨(p, comps), h, ?_⟩
  rw [hfd]

/-- Prop-drilling issues point at the first driller's component node. -/
theorem drillCheck_line_ok (tree : Tree) (f : String)
    (ctx : Option ProjectContext) (h : TreeLocsOK tree) :
    ∀ i ∈ detectPropDrillingCheck tree f ctx, 1 ≤ i.line := by
  intro i hi
  unfold detectPropDrillingCheck at hi
  obtain ⟨entry, hentry, hfn⟩ := List.mem_filterMap.mp hi
  split at hfn
  · exact absurd hfn (by simp)
  next fd hfind =>
    cases hfn
    have hfd : fd ∈ entry.2 := List.mem_of_find?_eq_some hfind
    obtain ⟨_, hcomps, _, _⟩ := (detectDrilledProps_iff tree entry.1
      entry.2).mp (by rw [Prod.mk.eta]; exact hentry)
    rw [hcomps] at hfd
    have hfd2 : fd ∈ usagesForProp tree entry.1 := by
      rcases List.mem_append.mp hfd with h1 | h2
      · exact List.mem_of_mem_filter h1
      · exact List.mem_of_mem_filter h2
    exact allPropUsages_line_ok tree h fd (List.mem_of_mem_filter hfd2)

/-- C7 counterexample: the prop `spreadsheet` is forwarded unused by one
component and handled by two in total, so the claim requires a warning
issue, but the rule reports nothing — `detectDrilledProps` skips every prop
name containing `spread`. -/
theorem claim_C7_counterexample :
    1 ≤ (drillersOf (usagesForProp spreadTree "spreadsheet")).length ∧
    2 ≤ ((drillersOf (usagesForProp spreadTree "spreadsheet")).length +
      (consumersOf (usagesForProp spreadTree "spreadsheet")).length) ∧
    detectPropDrillingCheck spreadTree "App.tsx" none = [] :=
  ⟨by decide, by decide, rfl⟩

/-- C7 amended: the prop-drilling rule reports a prop name exactly when the
name does not contain the substring `spread`, at least one component
forwards it to a child without using it, and the total number of handling
components (forwarders plus final users) is ≥ 2; the issue's severity is
`error` exactly when ≥ 3 components handle the name (else `warning`); one
intermediate unused forwarder yields a warning naming 2 components, two
yield an error naming 3 components, and a prop used at every intermediate
level yields zero issues. -/
theorem claim_C7_amended :
    (∀ (tree : Tree) (p : String),
      (∃ comps, (p, comps) ∈ detectDrilledProps tree) ↔
        (strContains p "spread" = false ∧
         1 ≤ (drillersOf (usagesForProp tree p)).length ∧
         2 ≤ (drillersOf (usagesForProp tree p)).length +
           (consumersOf (usagesForProp tree p)).length)) ∧
    (∀ (tree : Tree) (file : String) (ctx : Option ProjectContext)
        (p : String) (comps : List PropUsage),
      (p, comps) ∈ detectDrilledProps tree →
        ∃ fd, comps.find?
            (fun u => !u.isUsedInComponent && u.isPassedToChild) = some fd ∧
          drillIssue file p comps fd ∈
            detectPropDrillingCheck tree file ctx ∧
          ((drillIssue file p comps fd).severity = .error ↔
            3 ≤ comps.length)) ∧
    detectPropDrillingCheck warnTree "App.tsx" none =
      [{ rule := "detect-prop-drilling"
         severity := .warning
         message := "Prop \"userData\" is drilled through 2 components (Level1 → Level2) without being used in intermediate components - prop drilling detected"
         file := "App.tsx"
         line := 2
         column := 0
         suggestion := some "Consider using React Context for \"userData\" or use component composition to avoid prop drilling"
         fixable := some false }] ∧
    detectPropDrillingCheck errTree "App.tsx" none =
      [{ rule := "detect-prop-drilling"
         severity := .error
         message := "Prop \"config\" is drilled through 3 components (Level1 → Level2 → Level3) without being used in intermediate components - deep prop drilling detected"
         file := "App.tsx"
         line := 2
         column := 0
         suggestion := some "Critical: Use React Context or component composition to eliminate this deep prop drilling for \"config\""
         fixable := some false }] ∧
    detectPropDrillingCheck cleanTree "App.tsx" none = [] := by
  refine ⟨?_, ?_, rfl, rfl, rfl⟩
  · intro tree p
    constructor
    · rintro ⟨comps, hmem⟩
      obtain ⟨hspread, hcomps, hdr, hlen⟩ :=
        (detectDrilledProps_iff tree p comps).mp hmem
      refine ⟨hspread, hdr, ?_⟩
      rw [hcomps] at hlen
      simpa [List.length_append] using hlen
    · rintro ⟨hspread, hdr, hlen⟩
      refine ⟨drillersOf (usagesForProp tree p) ++
        consumersOf (usagesForProp tree p), ?_⟩
      rw [detectDrilledProps_iff]
      exact ⟨hspread, rfl, hdr, by simpa [List.length_append] using hlen⟩
  · intro tree file ctx p comps hmem
    obtain ⟨fd, hfd, hissue⟩ :=
      detectPropDrillingCheck_mem tree file ctx p comps hmem
    refine ⟨fd, hfd, hissue, ?_⟩
    unfold drillIssue
    by_cases h3 : comps.length ≥ 3
    · simp [h3]
    · simp [h3]

/-- Witness for C7 amended: the issue-existence clause at the concrete
drilled prop of `warnTree`. -/
theorem claim_C7_amended_witness :
    ∃ fd, ([⟨"Level1", "userData", false, true, ⟨2, 0⟩⟩,
            ⟨"Level2", "userData", true, false, ⟨6, 0⟩⟩] :
        List PropUsage).find?
        (fun u => !u.isUsedInComponent && u.isPassedToChild) = some fd ∧
      drillIssue "App.tsx" "userData"
          [⟨"Level1", "userData", false, true, ⟨2, 0⟩⟩,
           ⟨"Level2", "userData", true, false, ⟨6, 0⟩⟩] fd ∈
        detectPropDrillingCheck warnTree "App.tsx" none ∧
      ((drillIssue "App.tsx" "userData"
          [⟨"Level1", "userData", false, true, ⟨2, 0⟩⟩,
           ⟨"Level2", "userData", true, false, ⟨6, 0⟩⟩] fd).severity =
          .error ↔
        3 ≤ ([⟨"Level1", "userData", false, true, ⟨2, 0⟩⟩,
              ⟨"Level2", "userData", true, false, ⟨6, 0⟩⟩] :
          List PropUsage).length) :=
  claim_C7_amended.2.1 warnTree "App.tsx" none "userData"
    [⟨"Level1", "userData", false, true, ⟨2, 0⟩⟩,
     ⟨"Level2", "userData", true, false, ⟨6, 0⟩⟩]
    (by
      rw [show detectDrilledProps warnTree =
        [("userData",
          [⟨"Level1", "userData", false, true, ⟨2, 0⟩⟩,
           ⟨"Level2", "userData", true, false, ⟨6, 0⟩⟩])] from rfl]
      exact List.mem_singleton.mpr rfl)

/-- C2 counterexample: a prop-drilling issue carries the component node's
Babel position, whose column is 0-based — on `warnTree` (a top-level
`function Level1` at column 0) the rule set produces an issue with
`column = 0`, refuting the claim that every issue's column is ≥ 1. -/
theorem claim_C2_counterexample :
    ∃ i ∈ runAllRules warnTree "App.tsx" none, 1 ≤ i.line ∧ i.column = 0 := by
  refine ⟨drillIssue "App.tsx" "userData"
    [⟨"Level1", "userData", false, true, ⟨2, 0⟩⟩,
     ⟨"Level2", "userData", true, false, ⟨6, 0⟩⟩]
    ⟨"Level1", "userData", false, true, ⟨2, 0⟩⟩, ?_, by decide, rfl⟩
  rw [show runAllRules warnTree "App.tsx" none =
    [drillIssue "App.tsx" "userData"
      [⟨"Level1", "userData", false, true, ⟨2, 0⟩⟩,
       ⟨"Level2", "userData", true, false, ⟨6, 0⟩⟩]
      ⟨"Level1", "userData", false, true, ⟨2, 0⟩⟩] from rfl]
  exact List.mem_singleton.mpr rfl

/-- C2 amended: every issue produced by any rule of the rule set points at
a node of the input tree, so its line is the parser's 1-based line (hence
≥ 1 whenever the tree's recorded positions are parsed positions), while its
column is the parser's 0-based column and may be 0. -/
theorem claim_C2_amended (tree : Tree) (filename : String)
    (ctx : Option ProjectContext) (h : TreeLocsOK tree) :
    ∀ i ∈ runAllRules tree filename ctx, 1 ≤ i.line := by
  intro i hi
  unfold runAllRules rules at hi
  rw [List.mem_flatten] at hi
  obtain ⟨l, hl, hil⟩ := hi
  simp only [List.map_cons, List.map_nil, List.mem_cons,
    List.not_mem_nil, or_false] at hl
  rcases hl with rfl | rfl | rfl | rfl | rfl | rfl | rfl | rfl | rfl | rfl
  · exact line_ok_flatten _ tree
      (fun c hc => groupCheck_line_ok c filename (h c hc)) i hil
  · exact line_ok_flatten _ tree
      (fun c hc => contraCheck_line_ok c filename (h c hc)) i hil
  · exact line_ok_flatten _ tree
      (fun c hc => redundantCheck_line_ok c filename (h c hc)) i hil
  · exact line_ok_flatten _ tree
      (fun c hc => nestedCheck_line_ok c filename (h c hc)) i hil
  · exact line_ok_flatten _ tree
      (fun c hc => dupCheck_line_ok c filename (h c hc)) i hil
  · exact line_ok_flatten _ tree
      (fun c hc => transitionsCheck_line_ok c filename ctx (h c hc)) i hil
  · exact line_ok_flatten _ tree
      (fun c hc => useEffectCheck_line_ok c filename (h c hc)) i hil
  · exact drillCheck_line_ok tree filename ctx h i hil
  · exact line_ok_flatten _ tree
      (fun c hc => refsCheck_line_ok c filename (h c hc)) i hil
  · exact line_ok_flatten _ tree
      (fun c hc => serverCheck_line_ok c filename (h c hc)) i hil

/-- Witness for C2 amended: the bound applied to the concrete issue the
rule set produces on `warnTree`. -/
theorem claim_C2_amended_witness :
    1 ≤ (drillIssue "App.tsx" "userData"
      [⟨"Level1", "userData", false, true, ⟨2, 0⟩⟩,
       ⟨"Level2", "userData", true, false, ⟨6, 0⟩⟩]
      ⟨"Level1", "userData", false, true, ⟨2, 0⟩⟩).line :=
  claim_C2_amended warnTree "App.tsx" none
    (by
      intro c hc
      have hcomp : ∀ (cname prop : String) (used passed : Bool) (line : Nat),
          1 ≤ line → ComponentLocsOK (propComp cname prop used passed line) := by
        intro cname prop used passed line hline
        refine ⟨hline, ?_, ?_, ?_, ?_⟩
        · intro s hs
          exact absurd hs (List.not_mem_nil _)
        · intro call hcall
          exact absurd hcall (List.not_mem_nil _)
        · intro e he b hb
          exact absurd he (List.not_mem_nil _)
        · intro u hu
          rw [List.mem_singleton.mp hu]
          exact hline
      rcases List.mem_cons.mp hc with rfl | hc2
      · exact hcomp "Level1" "userData" false true 2 (by decide)
      · rcases List.mem_cons.mp hc2 with rfl | hc3
        · exact hcomp "Level2" "userData" true false 6 (by decide)
        · exact absurd hc3 (List.not_mem_nil _))
    _
    (by
      rw [show runAllRules warnTree "App.tsx" none =
        [drillIssue "App.tsx" "userData"
          [⟨"Level1", "userData", false, true, ⟨2, 0⟩⟩,
           ⟨"Level2", "userData", true, false, ⟨6, 0⟩⟩]
          ⟨"Level1", "userData", false, true, ⟨2, 0⟩⟩] from rfl]
      exact List.mem_singleton.mpr rfl)

/-- C6: the grouping rule emits exactly one warning issue per group of ≥ 2
related entries formed by the first-match procedure; for a component
declaring exactly `firstName, lastName, email, phone` with string-literal
initializers, exactly one issue is produced and its group contains all four
names. -/
theorem claim_C6 :
    (∀ (c : Component) (filename : String),
      (groupCheckComponent c filename).length =
        (findRelatedStateGroups c.stateCalls).length ∧
      (∀ i ∈ groupCheckComponent c filename, i.severity = .warning) ∧
      (∀ g ∈ findRelatedStateGroups c.stateCalls, 2 ≤ g.length)) ∧
    groupCheckComponent fourFieldComp "App.tsx" =
      [{ rule := "group-related-state"
         severity := .warning
         message := "Found 4 related state variables that should be grouped: firstName, lastName, email, phone"
         file := "App.tsx"
         line := 2
         column := 25
         suggestion := some "Consider combining these into a single state object: const [first, setFirst] = useState(\x7b firstName: \x27\x27, lastName: \x27\x27, email: \x27\x27, phone: \x27\x27 \x7d)"
         fixable := some true }] := by
  constructor
  · intro c filename
    refine ⟨?_, ?_, ?_⟩
    · unfold groupCheckComponent
      exact List.length_map _ _
    · intro i hi
      unfold groupCheckComponent at hi
      obtain ⟨g, _, hg⟩ := List.mem_map.mp hi
      rw [← hg]
      rfl
    · exact groupByFirstMatch_two_le areRelated c.stateCalls
  · rfl

/-- Witness for C6: the theorem's group-size bound applied to the concrete
four-entry group the procedure forms on `fourFieldComp`. -/
theorem claim_C6_witness :
    2 ≤ ([⟨"firstName", "setFirstName", some (.strLit ""), ⟨2, 25⟩⟩,
          ⟨"lastName", "setLastName", some (.strLit ""), ⟨3, 25⟩⟩,
          ⟨"email", "setEmail", some (.strLit ""), ⟨4, 25⟩⟩,
          ⟨"phone", "setPhone", some (.strLit ""), ⟨5, 25⟩⟩] :
      List StateEntry).length :=
  (claim_C6.1 fourFieldComp "App.tsx").2.2 _
    (by
      rw [show findRelatedStateGroups fourFieldComp.stateCalls =
        [[⟨"firstName", "setFirstName", some (.strLit ""), ⟨2, 25⟩⟩,
          ⟨"lastName", "setLastName", some (.strLit ""), ⟨3, 25⟩⟩,
          ⟨"email", "setEmail", some (.strLit ""), ⟨4, 25⟩⟩,
          ⟨"phone", "setPhone", some (.strLit ""), ⟨5, 25⟩⟩]] from rfl]
      exact List.mem_singleton.mpr rfl)

/-- C8 counterexample: on `c8ex` the source classifies `moderate` (its
`complexUpdates` counter needs only one co-occurring sibling, and its
moderate test has the extra disjunct `complexUpdates >= 2`) and emits an
issue, while the classification stated by the claim is `simple` with no
issue. -/
theorem claim_C8_counterexample :
    getComplexityLevel c8ex.stateCalls (analyzeStateUpdates c8ex) =
      .moderate ∧
    specComplexityLevelC8 c8ex.stateCalls (analyzeStateUpdates c8ex) =
      .simple ∧
    (transitionsCheckComponent c8ex "App.tsx" none).length = 1 :=
  ⟨rfl, rfl, rfl⟩

/-- C8 amended: the classification is `complex` exactly when count ≥ 8, or
≥ 3 setters have previous-value dependency with at least one co-occurring
sibling setter, or ≥ 3 setters show ≥ 2 conditional updates while count
≥ 4; `moderate` exactly when not complex and count ≥ 4, or ≥ 2 setters have
≥ 2 siblings, or ≥ 2 setters show ≥ 2 conditional updates while count ≥ 3,
or ≥ 2 setters have previous-value dependency with at least one sibling;
and the rule emits no issue exactly when the component uses the reducer
primitive or is classified simple. -/
theorem claim_C8_amended (sc : List StateEntry)
    (pats : List (String × UpdatePattern)) (c : Component) (f : String)
    (ctx : Option ProjectContext) :
    (getComplexityLevel sc pats = .complex ↔
      (8 ≤ sc.length ∨
        3 ≤ (pats.filter (fun p => p.2.dependsOnPrevState &&
          p.2.updatesWithOthers.length > 0)).length ∨
        (3 ≤ (pats.filter (fun p => p.2.conditionalUpdates ≥ 2)).length ∧
          4 ≤ sc.length))) ∧
    (getComplexityLevel sc pats = .moderate ↔
      (¬ (8 ≤ sc.length ∨
          3 ≤ (pats.filter (fun p => p.2.dependsOnPrevState &&
            p.2.updatesWithOthers.length > 0)).length ∨
          (3 ≤ (pats.filter (fun p => p.2.conditionalUpdates ≥ 2)).length ∧
            4 ≤ sc.length)) ∧
        (4 ≤ sc.length ∨
          2 ≤ (pats.filter (fun p =>
            p.2.updatesWithOthers.length ≥ 2)).length ∨
          (2 ≤ (pats.filter (fun p => p.2.conditionalUpdates ≥ 2)).length ∧
            3 ≤ sc.length) ∨
          2 ≤ (pats.filter (fun p => p.2.dependsOnPrevState &&
            p.2.updatesWithOthers.length > 0)).length))) ∧
    (transitionsCheckComponent c f ctx = [] ↔
      (hasUseReducer c = true ∨
        getComplexityLevel c.stateCalls (analyzeStateUpdates c) = .simple)) := by
  refine ⟨?_, ?_, ?_⟩
  · unfold getComplexityLevel
    dsimp only
    split
    next hc =>
      simp only [Bool.or_eq_true, Bool.and_eq_true, decide_eq_true_eq,
        ge_iff_le] at hc
      exact iff_of_true rfl (by tauto)
    next hc =>
      simp only [Bool.or_eq_true, Bool.and_eq_true, decide_eq_true_eq,
        ge_iff_le, not_or] at hc
      split
      · exact iff_of_false (by simp) (by tauto)
      · exact iff_of_false (by simp) (by tauto)
  · unfold getComplexityLevel
    dsimp only
    split
    next hc =>
      simp only [Bool.or_eq_true, Bool.and_eq_true, decide_eq_true_eq,
        ge_iff_le] at hc
      exact iff_of_false (by simp) (by tauto)
    next hc =>
      simp only [Bool.or_eq_true, Bool.and_eq_true, decide_eq_true_eq,
        ge_iff_le, not_or] at hc
      split
      next hm =>
        simp only [Bool.or_eq_true, Bool.and_eq_true, decide_eq_true_eq,
          ge_iff_le] at hm
        exact iff_of_true rfl (by tauto)
      next hm =>
        simp only [Bool.or_eq_true, Bool.and_eq_true, decide_eq_true_eq,
          ge_iff_le, not_or] at hm
        exact iff_of_false (by simp) (by tauto)
  · unfold transitionsCheckComponent
    by_cases hr : hasUseReducer c
    · simp [hr]
    · simp only [hr, Bool.false_eq_true, if_false]
      split
      next hne =>
        constructor
        · intro h
          exact absurd h (by simp)
        · intro h
          rcases h with h | h
          · exact absurd h (by simp [hr])
          · exact absurd h hne
      next hne =>
        push_neg at hne
        exact iff_of_true rfl (Or.inr hne)

/-- Witness for C3 at a concrete tree and two concrete contexts. -/
theorem claim_C3_witness :
    (groupRelatedStateCheck c1Tree "App.tsx" none).map dropSuggestion =
      (groupRelatedStateCheck c1Tree "App.tsx"
        (some ⟨true, false, none⟩)).map dropSuggestion :=
  (claim_C3 c1Tree "App.tsx" none (some ⟨true, false, none⟩)).1

/-- Witness for C8 amended: the issue-emission clause at `c8ex`. -/
theorem claim_C8_amended_witness :
    transitionsCheckComponent c8ex "App.tsx" none = [] ↔
      (hasUseReducer c8ex = true ∨
        getComplexityLevel c8ex.stateCalls (analyzeStateUpdates c8ex) =
          .simple) :=
  (claim_C8_amended c8ex.stateCalls (analyzeStateUpdates c8ex) c8ex
    "App.tsx" none).2.2

/-- C9 counterexample: the state entry `myData` ends with `data`
(case-insensitively) and contains no client-only naming pattern, yet the
server-vs-client rule produces no issue for a component declaring it alone —
the rule's pattern list has `apidata`/`apiresponse` but no bare `data`
suffix. -/
theorem claim_C9_counterexample :
    strEnds (strLower "myData") "data" = true ∧
    clientSidePatterns.all (fun p => !(strContains (strLower "myData") p)) = true ∧
    serverVsClientStateCheck [soloStateComp "myData" .nullLit] "App.tsx" none
      = [] :=
  ⟨rfl, rfl, rfl⟩

/-- C9 amended: for every state entry whose lower-cased name contains no
client-only naming pattern and equals / starts with / ends with one of the
listed server-data patterns, the server-vs-client rule flags that entry on
its own — its pattern-3 issue is in the component's issue list regardless of
effects or network calls.  (A name merely ending in `data` does not
suffice.) -/
theorem claim_C9_amended (c : Component) (filename : String) (s : StateEntry)
    (hmem : s ∈ c.stateCalls)
    (hclient : clientSidePatterns.all
      (fun p => !(strContains (strLower s.name) p)) = true)
    (hserver : serverDataPatterns.any (fun p => strLower s.name = p ||
      strStarts (strLower s.name) p || strEnds (strLower s.name) p) = true) :
    serverIssue c filename ⟨s.name, none, none, none⟩ ∈
      serverCheckComponent c filename := by
  have hfetch : isFetchRelatedInitialValue s = true := by
    unfold isFetchRelatedInitialValue
    rw [if_neg]
    · exact hserver
    · intro hany
      rw [List.any_eq_true] at hany
      obtain ⟨p, hp, hcontains⟩ := hany
      rw [List.all_eq_true] at hclient
      have := hclient p hp
      rw [hcontains] at this
      simp at this
  have hp3 : (⟨s.name, none, none, none⟩ : ServerPattern) ∈ serverPattern3 c := by
    unfold serverPattern3
    exact List.mem_filterMap.mpr ⟨s, hmem, by rw [hfetch]; rfl⟩
  have hpat : (⟨s.name, none, none, none⟩ : ServerPattern) ∈
      identifyServerStatePatterns c := by
    unfold identifyServerStatePatterns
    exact List.mem_append.mpr (Or.inr hp3)
  exact List.mem_map_of_mem _ hpat

/-- Witness for C9 at a concrete component declaring only `users`. -/
theorem claim_C9_amended_witness :
    serverIssue (soloStateComp "users" .nullLit) "App.tsx"
        ⟨"users", none, none, none⟩ ∈
      serverCheckComponent (soloStateComp "users" .nullLit) "App.tsx" :=
  claim_C9_amended (soloStateComp "users" .nullLit) "App.tsx"
    ⟨"users", "setUsers", some .nullLit, ⟨2, 19⟩⟩
    (List.mem_singleton.mpr rfl) rfl rfl

/-- C4: for a component declaring exactly the three state entries
`isLoading`, `hasError`, `isSuccess`, each with a literal-boolean
initializer, the contradiction rule produces exactly one issue, with
severity `error`, whose message names all three states; for a component
declaring the single state entry `status` with string initializer `idle`,
the contradiction rule produces zero issues. -/
theorem claim_C4 (filename : String) (c c2 : Component)
    (b1 b2 b3 : Bool) (s1 s2 s3 : String) (l1 l2 l3 l4 : Loc)
    (h : c.stateCalls =
      [⟨"isLoading", s1, some (.boolLit b1), l1⟩,
       ⟨"hasError", s2, some (.boolLit b2), l2⟩,
       ⟨"isSuccess", s3, some (.boolLit b3), l3⟩])
    (h2 : c2.stateCalls = [⟨"status", "setStatus", some (.strLit "idle"), l4⟩]) :
    contraCheckComponent c filename =
      [{ rule := "avoid-state-contradictions"
         severity := .error
         message := "Found 3 boolean states that can contradict: isLoading, hasError, isSuccess"
         file := filename
         line := l1.line
         column := l1.column
         suggestion := some "Replace with a single state: const [status, setStatus] = useState<\x27idle\x27 | \x27loading\x27 | \x27error\x27 | \x27success\x27>(\x27idle\x27)"
         fixable := some true }] ∧
    contraCheckComponent c2 filename = [] := by
  constructor
  · simp only [contraCheckComponent, h]
    rfl
  · simp only [contraCheckComponent, h2]
    rfl

/-- Witness for C4 at a concrete component. -/
theorem claim_C4_witness :
    (contraCheckComponent
      { name := some "C", loc := ⟨1, 0⟩
        stateCalls :=
          [⟨"isLoading", "setIsLoading", some (.boolLit false), ⟨2, 8⟩⟩,
           ⟨"hasError", "setHasError", some (.boolLit false), ⟨3, 8⟩⟩,
           ⟨"isSuccess", "setIsSuccess", some (.boolLit false), ⟨4, 8⟩⟩]
        calls := [], effects := [], memberAccesses := [], dupProps := []
        propUsages := [], renderIdents := [], identUsages := [] } "App.tsx").length = 1 := by
  have h := claim_C4 "App.tsx"
    { name := some "C", loc := ⟨1, 0⟩
      stateCalls :=
        [⟨"isLoading", "setIsLoading", some (.boolLit false), ⟨2, 8⟩⟩,
         ⟨"hasError", "setHasError", some (.boolLit false), ⟨3, 8⟩⟩,
         ⟨"isSuccess", "setIsSuccess", some (.boolLit false), ⟨4, 8⟩⟩]
      calls := [], effects := [], memberAccesses := [], dupProps := []
      propUsages := [], renderIdents := [], identUsages := [] }
    { name := some "D", loc := ⟨1, 0⟩
      stateCalls := [⟨"status", "setStatus", some (.strLit "idle"), ⟨2, 8⟩⟩]
      calls := [], effects := [], memberAccesses := [], dupProps := []
      propUsages := [], renderIdents := [], identUsages := [] }
    false false false "setIsLoading" "setHasError" "setIsSuccess"
    ⟨2, 8⟩ ⟨3, 8⟩ ⟨4, 8⟩ ⟨2, 8⟩ rfl rfl
  rw [h.1]
  rfl

end BRS
